import Mathlib

/-!
# queuet: the task handlers and their read-through cache

A shallow embedding of `internal/handlers/task_handler.go` and
`internal/models/task.go`.  The five handlers are functions from the request,
the faults the two collaborators raise during the call and the state of the
two collaborators (the `tasks` table and the Redis cache) to the HTTP response,
the ordered list of store and cache operations the call issued, and the state
afterwards.
-/

namespace Queuet

/-! ## Values -/

/-- A `time.Time`: the instant (used by `ORDER BY created_at`) together with the
RFC 3339 text `encoding/json` writes for it.  Timestamps are taken to be ones
`encoding/json` can write (years 0 to 9999), as every `time.Now()` is. -/
structure Time where
  unixNano : Int
  text : String
  deriving DecidableEq, Repr

/-- The struct `models.Task`. -/
structure Task where
  ID : Int
  Title : String
  Description : String
  Status : String
  CreatedAt : Time
  UpdatedAt : Time
  deriving DecidableEq, Repr

/-- The struct `models.CreateTaskRequest`. -/
structure CreateTaskRequest where
  Title : String
  Description : String
  deriving DecidableEq, Repr

/-- The struct `models.UpdateTaskRequest`. -/
structure UpdateTaskRequest where
  Title : String
  Description : String
  Status : String
  deriving DecidableEq, Repr

/-- The constant `time.Hour`, a `time.Duration` counted in nanoseconds. -/
def Hour : Int := 60 * (60 * (1000 * (1000 * 1000)))

/-! ## strconv and fmt -/

/-- The value of a run of decimal digits, `none` when a character is not `0`..`9`. -/
def digitsValue : List Char → Nat → Option Nat
  | [], acc => some acc
  | c :: cs, acc =>
    if 48 ≤ c.toNat ∧ c.toNat ≤ 57 then digitsValue cs (10 * acc + (c.toNat - 48)) else none

/-- The unsigned part of `strconv.ParseInt(s, 10, 64)`: a non-empty run of digits. -/
def parseMagnitude (cs : List Char) : Option Nat :=
  match cs with
  | [] => none
  | _ :: _ => digitsValue cs 0

/-- The call `strconv.ParseInt(s, 10, 64)`; `none` stands for a non-nil error
(bad syntax or a value outside the signed 64-bit range). -/
def ParseInt (s : String) : Option Int :=
  match s.data with
  | [] => none
  | '-' :: cs =>
    match parseMagnitude cs with
    | some n => if n ≤ 2 ^ 63 then some (-(n : Int)) else none
    | none => none
  | '+' :: cs =>
    match parseMagnitude cs with
    | some n => if n < 2 ^ 63 then some (n : Int) else none
    | none => none
  | cs =>
    match parseMagnitude cs with
    | some n => if n < 2 ^ 63 then some (n : Int) else none
    | none => none

/-- The call `strconv.Atoi(s)` on a 64-bit platform. -/
def Atoi (s : String) : Option Int := ParseInt s

/-- The decimal digits of a natural number, most significant first. -/
def decimalDigits : Nat → Nat → List Char
  | 0, _ => []
  | fuel + 1, n =>
    if n < 10 then [Char.ofNat (48 + n)]
    else decimalDigits fuel (n / 10) ++ [Char.ofNat (48 + n % 10)]

/-- The verb `%d` of `fmt.Sprintf` applied to an integer. -/
def formatInt (n : Int) : String :=
  match n with
  | Int.ofNat m => String.mk (decimalDigits (m + 1) m)
  | Int.negSucc m => String.mk ('-' :: decimalDigits (m + 2) (m + 1))

/-- The expression `fmt.Sprintf("task:%d", taskID)`. -/
def cacheKey (taskID : Int) : String := "task:" ++ formatInt taskID

/-- Two's-complement wrap-around of Go's 64-bit `int` arithmetic. -/
def wrapInt64 (x : Int) : Int := (x + 2 ^ 63) % 2 ^ 64 - 2 ^ 63

/-! ## encoding/json -/

/-- One lower-case hexadecimal digit. -/
def hexDigit (n : Nat) : Char :=
  if n < 10 then Char.ofNat (48 + n) else Char.ofNat (87 + n)

/-- How `encoding/json` writes one character of a string (HTML escaping on, as
it is for both `json.Marshal` and a fresh `json.Encoder`). -/
def escapeChar (c : Char) : List Char :=
  if c = '"' then ['\\', '"']
  else if c = '\\' then ['\\', '\\']
  else if c = '\n' then ['\\', 'n']
  else if c = '\r' then ['\\', 'r']
  else if c = '\t' then ['\\', 't']
  else if c.toNat = 8 then ['\\', 'b']
  else if c.toNat = 12 then ['\\', 'f']
  else if c.toNat < 32 ∨ c = '<' ∨ c = '>' ∨ c = '&' then
    ['\\', 'u', '0', '0', hexDigit (c.toNat / 16), hexDigit (c.toNat % 16)]
  else if c.toNat = 8232 then ['\\', 'u', '2', '0', '2', '8']
  else if c.toNat = 8233 then ['\\', 'u', '2', '0', '2', '9']
  else [c]

/-- A Go string as a JSON string literal. -/
def jsonString (s : String) : String :=
  "\"" ++ String.mk (s.data.flatMap escapeChar) ++ "\""

/-- The call `json.Marshal(task)` for a `models.Task`: the fields in declaration
order under the names of their `json` tags. -/
def jsonMarshal (t : Task) : String :=
  "\x7b\"id\":" ++ formatInt t.ID ++
  ",\"title\":" ++ jsonString t.Title ++
  ",\"description\":" ++ jsonString t.Description ++
  ",\"status\":" ++ jsonString t.Status ++
  ",\"created_at\":\"" ++ t.CreatedAt.text ++
  "\",\"updated_at\":\"" ++ t.UpdatedAt.text ++ "\"\x7d"

/-- The call `json.NewEncoder(w).Encode(task)`: the encoding followed by a newline. -/
def jsonEncode (t : Task) : String := jsonMarshal t ++ "\n"

/-- The call `json.NewEncoder(w).Encode(tasks)` for a `[]models.Task`; a nil
slice, which is what `var tasks []models.Task` stays when nothing is appended,
is written as `null`. -/
def jsonEncodeTasks (ts : List Task) : String :=
  match ts with
  | [] => "null\n"
  | _ :: _ => "[" ++ String.intercalate "," (ts.map jsonMarshal) ++ "]\n"

/-- The call `json.NewEncoder(w).Encode(map[string]int64{"id": taskID})`. -/
def jsonEncodeID (taskID : Int) : String := "\x7b\"id\":" ++ formatInt taskID ++ "\x7d\n"

/-- A member value of a JSON object, as far as a string field tells values
apart: `null`, a string, or anything else (number, boolean, array, object). -/
inductive JsonValue where
  | null
  | string (s : String)
  | other
  deriving DecidableEq, Repr

/-- What `json.NewDecoder(r.Body)` finds at the head of the request body: no
well-formed JSON value (empty, truncated or bad syntax), `null`, an object with
its members in order, or another JSON value. -/
inductive Body where
  | invalid
  | null
  | object (members : List (String × JsonValue))
  | other
  deriving DecidableEq, Repr

/-- Case folding of one character of an object key, as far as it can reach an
ASCII letter: upper case, the long s and the Kelvin sign. -/
def foldChar (c : Char) : Char :=
  if c.toNat = 383 then 's' else if c.toNat = 8490 then 'k' else c.toLower

/-- Whether an object key selects the struct field with the given (lower-case)
JSON name: `encoding/json` matches names case-insensitively. -/
def keyMatches (key name : String) : Bool := key.data.map foldChar == name.data

/-- Storing a member value into a string field: a string is stored, `null`
leaves the field alone, anything else is an `UnmarshalTypeError`. -/
def setString (v : JsonValue) (old : String) : Option String :=
  match v with
  | .string s => some s
  | .null => some old
  | .other => none

/-- Decoding the members of an object into a `CreateTaskRequest`. -/
def decodeCreateMembers : List (String × JsonValue) → CreateTaskRequest → Option CreateTaskRequest
  | [], req => some req
  | (k, v) :: ms, req =>
    if keyMatches k "title" then
      match setString v req.Title with
      | some t => decodeCreateMembers ms { req with Title := t }
      | none => none
    else if keyMatches k "description" then
      match setString v req.Description with
      | some d => decodeCreateMembers ms { req with Description := d }
      | none => none
    else decodeCreateMembers ms req

/-- The call `json.NewDecoder(r.Body).Decode(&req)` for a `CreateTaskRequest`
that starts at its zero value; `none` stands for a non-nil error. -/
def decodeCreateTaskRequest (b : Body) : Option CreateTaskRequest :=
  match b with
  | .invalid => none
  | .null => some ⟨"", ""⟩
  | .object ms => decodeCreateMembers ms ⟨"", ""⟩
  | .other => none

/-- Decoding the members of an object into an `UpdateTaskRequest`. -/
def decodeUpdateMembers : List (String × JsonValue) → UpdateTaskRequest → Option UpdateTaskRequest
  | [], req => some req
  | (k, v) :: ms, req =>
    if keyMatches k "title" then
      match setString v req.Title with
      | some t => decodeUpdateMembers ms { req with Title := t }
      | none => none
    else if keyMatches k "description" then
      match setString v req.Description with
      | some d => decodeUpdateMembers ms { req with Description := d }
      | none => none
    else if keyMatches k "status" then
      match setString v req.Status with
      | some st => decodeUpdateMembers ms { req with Status := st }
      | none => none
    else decodeUpdateMembers ms req

/-- The call `json.NewDecoder(r.Body).Decode(&req)` for an `UpdateTaskRequest`
that starts at its zero value; `none` stands for a non-nil error. -/
def decodeUpdateTaskRequest (b : Body) : Option UpdateTaskRequest :=
  match b with
  | .invalid => none
  | .null => some ⟨"", "", ""⟩
  | .object ms => decodeUpdateMembers ms ⟨"", "", ""⟩
  | .other => none

/-! ## net/http -/

/-- What the handler wrote to its `http.ResponseWriter`. -/
structure Response where
  status : Nat
  header : List (String × String)
  body : String
  deriving DecidableEq, Repr

/-- The call `http.Error(w, msg, code)`. -/
def httpError (msg : String) (code : Nat) : Response :=
  { status := code
    header := [("Content-Type", "text/plain; charset=utf-8"), ("X-Content-Type-Options", "nosniff")]
    body := msg ++ "\n" }

/-- A body written after `w.Header().Set("Content-Type", "application/json")`
with the given status (200 when the handler never calls `WriteHeader`). -/
def jsonResponse (code : Nat) (body : String) : Response :=
  { status := code, header := [("Content-Type", "application/json")], body := body }

/-! ## The collaborators: the `tasks` table and the Redis cache -/

/-- The error of a `database/sql` call: the sentinel `sql.ErrNoRows` or any
other error, with its text. -/
inductive DbErr where
  | ErrNoRows
  | other (msg : String)
  deriving DecidableEq, Repr

/-- The error of a Redis command: the sentinel `redis.Nil` (key absent) or any
other error, with its text. -/
inductive CacheErr where
  | Nil
  | other (msg : String)
  deriving DecidableEq, Repr

/-- The outcome of a call on a collaborator: Go's `(value, err)` pair. -/
inductive Res (ε α : Type) where
  | err (e : ε)
  | ok (a : α)
  deriving DecidableEq, Repr

/-- One live entry of the cache. -/
structure Entry where
  key : String
  value : String
  expiration : Int
  deriving DecidableEq, Repr

/-- The state of the two collaborators between calls: the rows of `tasks`, the
next value of the id sequence, and the live cache entries. -/
structure Sys where
  rows : List Task
  nextID : Int
  cache : List Entry
  deriving DecidableEq, Repr

/-- The faults the collaborators raise during one call, each with the text of
the error: `getErr`, `setErr`, `delErr` make the Redis command fail without
effect; `queryErr` makes the SQL statement fail before it runs; `scanErr` fails
the reading of a returned row, `rowsErr` the iteration (`rows.Err()`), and
`rowsAffectedErr` the call `result.RowsAffected()`, all after the statement ran. -/
structure Faults where
  getErr : Option String
  setErr : Option String
  delErr : Option String
  queryErr : Option String
  scanErr : Option String
  rowsErr : Option String
  rowsAffectedErr : Option String
  deriving DecidableEq, Repr

/-- A call during which neither collaborator raises a fault. -/
def noFaults : Faults := ⟨none, none, none, none, none, none, none⟩

/-- One operation a handler issued on a collaborator, in the order issued;
store operations carry the outcome the handler saw. -/
inductive Effect where
  | cacheGet (key : String)
  | cacheSet (key value : String) (expiration : Int)
  | cacheDel (key : String)
  | dbInsert (title description status : String) (now : Time) (res : Res String Int)
  | dbSelect (id : Int) (res : Res DbErr Task)
  | dbUpdate (title description status : Option String) (now : Time) (id : Int)
      (res : Res DbErr Task)
  | dbDelete (id : Int) (res : Res String Nat)
  | dbList (limit offset : Int) (res : Res String (List Task))
  deriving DecidableEq, Repr

/-- The value stored under a key, if the key is live. -/
def cacheLookup (c : List Entry) (key : String) : Option String :=
  (c.find? (fun e => e.key == key)).map (fun e => e.value)

/-- The call `h.cache.Get(ctx, key).Result()`. -/
def redisGet (fl : Faults) (c : List Entry) (key : String) : Res CacheErr String :=
  match fl.getErr with
  | some msg => .err (.other msg)
  | none =>
    match cacheLookup c key with
    | some v => .ok v
    | none => .err .Nil

/-- The call `h.cache.Set(ctx, key, value, expiration)`, whose error the handlers drop. -/
def redisSet (fl : Faults) (c : List Entry) (key value : String) (expiration : Int) : List Entry :=
  match fl.setErr with
  | some _ => c
  | none => ⟨key, value, expiration⟩ :: c.filter (fun e => e.key != key)

/-- The call `h.cache.Del(ctx, key)`, whose error the handlers drop. -/
def redisDel (fl : Faults) (c : List Entry) (key : String) : List Entry :=
  match fl.delErr with
  | some _ => c
  | none => c.filter (fun e => e.key != key)

/-- The statement `INSERT INTO tasks (title, description, status, created_at,
updated_at) VALUES ($1, $2, $3, $4, $4) RETURNING id`, scanned into `taskID`. -/
def insertTask (fl : Faults) (s : Sys) (title description status : String) (now : Time) :
    Res String Int × Sys :=
  match fl.queryErr with
  | some msg => (.err msg, s)
  | none =>
    let s1 : Sys :=
      { s with rows := s.rows ++ [⟨s.nextID, title, description, status, now, now⟩]
               nextID := s.nextID + 1 }
    match fl.scanErr with
    | some msg => (.err msg, s1)
    | none => (.ok s.nextID, s1)

/-- The statement `SELECT id, title, description, status, created_at, updated_at
FROM tasks WHERE id = $1`, scanned into a `models.Task`. -/
def selectTask (fl : Faults) (rows : List Task) (id : Int) : Res DbErr Task :=
  match fl.queryErr with
  | some msg => .err (.other msg)
  | none =>
    match rows.find? (fun r => r.ID == id) with
    | none => .err .ErrNoRows
    | some t =>
      match fl.scanErr with
      | some msg => .err (.other msg)
      | none => .ok t

/-- The `SET` clause of the update on one row: `COALESCE($n, column)` per
column and `updated_at = $4`. -/
def coalesceRow (title description status : Option String) (now : Time) (r : Task) : Task :=
  { r with Title := title.getD r.Title
           Description := description.getD r.Description
           Status := status.getD r.Status
           UpdatedAt := now }

/-- The statement `UPDATE tasks SET ... WHERE id = $5 RETURNING id, title,
description, status, created_at, updated_at`, scanned into a `models.Task`. -/
def updateTask (fl : Faults) (rows : List Task) (title description status : Option String)
    (now : Time) (id : Int) : Res DbErr Task × List Task :=
  match fl.queryErr with
  | some msg => (.err (.other msg), rows)
  | none =>
    let rows1 := rows.map (fun r => if r.ID = id then coalesceRow title description status now r else r)
    match rows1.find? (fun r => r.ID == id) with
    | none => (.err .ErrNoRows, rows1)
    | some t =>
      match fl.scanErr with
      | some msg => (.err (.other msg), rows1)
      | none => (.ok t, rows1)

/-- The statement `DELETE FROM tasks WHERE id = $1` run by `h.db.Exec`, with
the number of rows it removed. -/
def deleteTask (fl : Faults) (rows : List Task) (id : Int) : Res String Nat × List Task :=
  match fl.queryErr with
  | some msg => (.err msg, rows)
  | none => (.ok (rows.filter (fun r => r.ID == id)).length, rows.filter (fun r => r.ID != id))

/-- The statement `SELECT ... FROM tasks ORDER BY created_at DESC LIMIT $1
OFFSET $2` run by `h.db.Query`; PostgreSQL rejects a negative `OFFSET`. -/
def queryTasks (fl : Faults) (rows : List Task) (limit offset : Int) : Res String (List Task) :=
  match fl.queryErr with
  | some msg => .err msg
  | none =>
    if offset < 0 then .err "pq: OFFSET must not be negative"
    else
      .ok (((rows.insertionSort
        (fun a b => b.CreatedAt.unixNano ≤ a.CreatedAt.unixNano)).drop offset.toNat).take limit.toNat)

/-- The value `sql.NullString{String: s, Valid: s != ""}` as a query argument:
SQL `NULL` when `s` is empty. -/
def nullString (s : String) : Option String := if s = "" then none else some s

/-! ## The handlers -/

/-- What one handler call did: the response, the operations issued on the
collaborators in order, and the state of the collaborators afterwards. -/
structure Result where
  resp : Response
  effects : List Effect
  sys : Sys
  deriving DecidableEq, Repr

/-- The handler `TaskHandler.CreateTask`. -/
def CreateTask (body : Body) (now : Time) (fl : Faults) (s : Sys) : Result :=
  match decodeCreateTaskRequest body with
  | none => ⟨httpError "Invalid request payload" 400, [], s⟩
  | some req =>
    if req.Title = "" then ⟨httpError "Title is required" 400, [], s⟩
    else
      match insertTask fl s req.Title req.Description "pending" now with
      | (.err e, s1) =>
        ⟨httpError "Failed to create task" 500,
          [.dbInsert req.Title req.Description "pending" now (.err e)], s1⟩
      | (.ok taskID, s1) =>
        ⟨jsonResponse 201 (jsonEncodeID taskID),
          [.dbInsert req.Title req.Description "pending" now (.ok taskID)], s1⟩

/-- The handler `TaskHandler.GetTask`; `idParam` is `chi.URLParam(r, "id")`. -/
def GetTask (idParam : String) (fl : Faults) (s : Sys) : Result :=
  match ParseInt idParam with
  | none => ⟨httpError "Invalid task ID" 400, [], s⟩
  | some taskID =>
    match redisGet fl s.cache (cacheKey taskID) with
    | .ok cachedTask => ⟨jsonResponse 200 cachedTask, [.cacheGet (cacheKey taskID)], s⟩
    | .err _ =>
      match selectTask fl s.rows taskID with
      | .err .ErrNoRows =>
        ⟨httpError "Task not found" 404,
          [.cacheGet (cacheKey taskID), .dbSelect taskID (.err .ErrNoRows)], s⟩
      | .err (.other e) =>
        ⟨httpError "Failed to get task" 500,
          [.cacheGet (cacheKey taskID), .dbSelect taskID (.err (.other e))], s⟩
      | .ok task =>
        ⟨jsonResponse 200 (jsonEncode task),
          [.cacheGet (cacheKey taskID), .dbSelect taskID (.ok task),
            .cacheSet (cacheKey taskID) (jsonMarshal task) Hour],
          { s with cache := redisSet fl s.cache (cacheKey taskID) (jsonMarshal task) Hour }⟩

/-- The handler `TaskHandler.UpdateTask`. -/
def UpdateTask (idParam : String) (body : Body) (now : Time) (fl : Faults) (s : Sys) : Result :=
  match ParseInt idParam with
  | none => ⟨httpError "Invalid task ID" 400, [], s⟩
  | some taskID =>
    match decodeUpdateTaskRequest body with
    | none => ⟨httpError "Invalid request payload" 400, [], s⟩
    | some req =>
      if req.Status ≠ "" ∧ req.Status ≠ "pending" ∧ req.Status ≠ "in_progress"
          ∧ req.Status ≠ "completed" then
        ⟨httpError "Invalid status value" 400, [], s⟩
      else
        match updateTask fl s.rows (nullString req.Title) (nullString req.Description)
            (nullString req.Status) now taskID with
        | (.err .ErrNoRows, rows1) =>
          ⟨httpError "Task not found" 404,
            [.dbUpdate (nullString req.Title) (nullString req.Description)
              (nullString req.Status) now taskID (.err .ErrNoRows)],
            { s with rows := rows1 }⟩
        | (.err (.other e), rows1) =>
          ⟨httpError "Failed to update task" 500,
            [.dbUpdate (nullString req.Title) (nullString req.Description)
              (nullString req.Status) now taskID (.err (.other e))],
            { s with rows := rows1 }⟩
        | (.ok task, rows1) =>
          ⟨jsonResponse 200 (jsonEncode task),
            [.dbUpdate (nullString req.Title) (nullString req.Description)
              (nullString req.Status) now taskID (.ok task),
              .cacheSet (cacheKey taskID) (jsonMarshal task) Hour],
            { s with rows := rows1
                     cache := redisSet fl s.cache (cacheKey taskID) (jsonMarshal task) Hour }⟩

/-- The handler `TaskHandler.DeleteTask`. -/
def DeleteTask (idParam : String) (fl : Faults) (s : Sys) : Result :=
  match ParseInt idParam with
  | none => ⟨httpError "Invalid task ID" 400, [], s⟩
  | some taskID =>
    match deleteTask fl s.rows taskID with
    | (.err e, rows1) =>
      ⟨httpError "Failed to delete task" 500, [.dbDelete taskID (.err e)], { s with rows := rows1 }⟩
    | (.ok rowsAffected, rows1) =>
      match fl.rowsAffectedErr with
      | some _ =>
        ⟨httpError "Failed to get rows affected" 500, [.dbDelete taskID (.ok rowsAffected)],
          { s with rows := rows1 }⟩
      | none =>
        if rowsAffected = 0 then
          ⟨httpError "Task not found" 404, [.dbDelete taskID (.ok rowsAffected)],
            { s with rows := rows1 }⟩
        else
          ⟨⟨204, [], ""⟩, [.dbDelete taskID (.ok rowsAffected), .cacheDel (cacheKey taskID)],
            { s with rows := rows1, cache := redisDel fl s.cache (cacheKey taskID) }⟩

/-- The pagination parameter read by `ListTasks`: the parsed value when the
text is non-empty, parses and is positive, the default otherwise. -/
def pageParam (text : String) (dflt : Int) : Int :=
  if text ≠ "" then
    match Atoi text with
    | some p => if p > 0 then p else dflt
    | none => dflt
  else dflt

/-- The handler `TaskHandler.ListTasks`; `pageStr` and `sizeStr` are
`r.URL.Query().Get("page")` and `r.URL.Query().Get("size")`. -/
def ListTasks (pageStr sizeStr : String) (fl : Faults) (s : Sys) : Result :=
  let page := pageParam pageStr 1
  let pageSize := pageParam sizeStr 10
  let offset := wrapInt64 ((page - 1) * pageSize)
  match queryTasks fl s.rows pageSize offset with
  | .err e => ⟨httpError "Failed to list tasks" 500, [.dbList pageSize offset (.err e)], s⟩
  | .ok tasks =>
    match tasks, fl.scanErr with
    | _ :: _, some _ =>
      ⟨httpError "Failed to scan task" 500, [.dbList pageSize offset (.ok tasks)], s⟩
    | _, _ =>
      match fl.rowsErr with
      | some _ =>
        ⟨httpError "Error iterating tasks" 500, [.dbList pageSize offset (.ok tasks)], s⟩
      | none =>
        ⟨jsonResponse 200 (jsonEncodeTasks tasks), [.dbList pageSize offset (.ok tasks)], s⟩

/-! ## Runs of calls -/

/-- One step of a sequential run: a handler call together with the faults
raised during it, or the expiry of the cache entries under one key. -/
inductive Step where
  | create (body : Body) (now : Time) (fl : Faults)
  | get (idParam : String) (fl : Faults)
  | update (idParam : String) (body : Body) (now : Time) (fl : Faults)
  | delete (idParam : String) (fl : Faults)
  | list (pageStr sizeStr : String) (fl : Faults)
  | expire (key : String)
  deriving DecidableEq, Repr

/-- The state of the collaborators after one step. -/
def step (s : Sys) (st : Step) : Sys :=
  match st with
  | .create body now fl => (CreateTask body now fl s).sys
  | .get idParam fl => (GetTask idParam fl s).sys
  | .update idParam body now fl => (UpdateTask idParam body now fl s).sys
  | .delete idParam fl => (DeleteTask idParam fl s).sys
  | .list pageStr sizeStr fl => (ListTasks pageStr sizeStr fl s).sys
  | .expire key => { s with cache := s.cache.filter (fun e => e.key != key) }

/-- The state after a run. -/
def run (s : Sys) (steps : List Step) : Sys := steps.foldl step s

/-- Every state a run passes through, the initial one first. -/
def trajectory (s : Sys) : List Step → List Sys
  | [] => [s]
  | st :: rest => s :: trajectory (step s st) rest

/-- A cache mutation: `Set` or `Del`. -/
def Effect.isCacheMutation : Effect → Bool
  | .cacheSet _ _ _ => true
  | .cacheDel _ => true
  | _ => false

/-- A store mutation that succeeded: an insert that returned its id, an update
that returned its row, a delete that ran and removed at least one row. -/
def Effect.isStoreMutationOK : Effect → Bool
  | .dbInsert _ _ _ _ (.ok _) => true
  | .dbUpdate _ _ _ _ _ (.ok _) => true
  | .dbDelete _ (.ok n) => decide (0 < n)
  | _ => false

/-- A store operation of any kind. -/
def Effect.isStoreOp : Effect → Bool
  | .cacheGet _ => false
  | .cacheSet _ _ _ => false
  | .cacheDel _ => false
  | _ => true

/-! ## Sample data -/

/-- A sample timestamp. -/
def sampleTime : Time := ⟨0, "T0"⟩

/-- A later sample timestamp. -/
def sampleLater : Time := ⟨1, "T1"⟩

/-- A sample row with id 1. -/
def sampleTask : Task := ⟨1, "a", "", "pending", sampleTime, sampleTime⟩

/-- A store holding the sample row, with an empty cache. -/
def sampleSys : Sys := ⟨[sampleTask], 2, []⟩

/-- The sample store with an entry for id 1 in the cache. -/
def sampleCachedSys : Sys := ⟨[sampleTask], 2, [⟨"task:1", "v", Hour⟩]⟩

/-- Faults of a call during which every cache command fails. -/
def cacheDown : Faults := ⟨some "dial tcp: connection refused", some "dial tcp: connection refused",
  some "dial tcp: connection refused", none, none, none, none⟩

/-- The string a request body gives for a field, which the specification
calls the value provided for it: the string of the last member under the
field's key that carries a string, and `cur` when the body has none. -/
def memberString : List (String × JsonValue) → String → String → String
  | [], _, cur => cur
  | (k, v) :: ms, name, cur =>
    if keyMatches k name then
      match v with
      | .string x => memberString ms name x
      | _ => memberString ms name cur
    else memberString ms name cur

/-- A sample row with id 1 that has a description. -/
def describedTask : Task := ⟨1, "a", "d", "pending", sampleTime, sampleTime⟩

/-- A store holding the described row, with an empty cache. -/
def describedSys : Sys := ⟨[describedTask], 2, []⟩

/-- An empty table, with an empty cache. -/
def emptySys : Sys := ⟨[], 1, []⟩

/-- Whether two fault records belong to the same failure class: they raise
errors at the same places, possibly with different texts. -/
def Faults.sameClass (a b : Faults) : Bool :=
  a.getErr.isSome == b.getErr.isSome && a.setErr.isSome == b.setErr.isSome &&
  a.delErr.isSome == b.delErr.isSome && a.queryErr.isSome == b.queryErr.isSome &&
  a.scanErr.isSome == b.scanErr.isSome && a.rowsErr.isSome == b.rowsErr.isSome &&
  a.rowsAffectedErr.isSome == b.rowsAffectedErr.isSome

/-- Faults of a call whose SQL statement fails with a refused connection. -/
def storeRefused : Faults := ⟨none, none, none, some "dial tcp 10.0.0.5:5432: connection refused",
  none, none, none⟩

/-- Faults of a call whose SQL statement fails with a syntax error report. -/
def storeSyntax : Faults := ⟨none, none, none, some "pq: syntax error at or near \"FROM\"",
  none, none, none⟩

/-! ## Configuration: `internal/database/postgres.go` and `internal/cache/redis.go` -/

/-- The process environment as `os.LookupEnv` reads it: the value of a
variable, or `none` when the variable is not set. -/
abbrev Environ := String → Option String

/-- The function `getEnv`, which the packages `database` and `cache` both
define, with the same body. -/
def getEnv (env : Environ) (key fallback : String) : String :=
  match env key with
  | none => fallback
  | some val => if val = "" then fallback else val

/-- The struct `database.Config`. -/
structure Config where
  Host : String
  Port : String
  User : String
  Password : String
  DBName : String
  SSLMode : String
  deriving DecidableEq, Repr

/-- The function `database.NewConfig`. -/
def NewConfig (env : Environ) : Config :=
  { Host := getEnv env "DB_HOST" "localhost"
    Port := getEnv env "DB_PORT" "5432"
    User := getEnv env "DB_USER" "postgres"
    Password := getEnv env "DB_PASSWORD" "postgres"
    DBName := getEnv env "DB_NAME" "queuet"
    SSLMode := getEnv env "DB_SSLMODE" "disable" }

/-- Whether reading a run of characters as an unsigned 64-bit decimal stops at
a character that is not a digit before the value leaves the 64-bit range: the
syntax error of `strconv.ParseUint`, as opposed to its range error. -/
def stopsAtNonDigit : List Char → Nat → Bool
  | [], _ => false
  | c :: cs, n =>
    if 48 ≤ c.toNat ∧ c.toNat ≤ 57 then
      if 10 * n + (c.toNat - 48) < 2 ^ 64 then stopsAtNonDigit cs (10 * n + (c.toNat - 48))
      else false
    else true

/-- The first result of `strconv.Atoi(s)`, which is all that
`port, _ := strconv.Atoi(...)` keeps: the number when `s` parses, 0 on a syntax
error, the nearest bound of the signed 64-bit range on a range error. -/
def atoiValue (s : String) : Int :=
  match ParseInt s with
  | some n => n
  | none =>
    match s.data with
    | [] => 0
    | '-' :: cs => if cs = [] ∨ stopsAtNonDigit cs 0 = true then 0 else -(2 ^ 63)
    | '+' :: cs => if cs = [] ∨ stopsAtNonDigit cs 0 = true then 0 else 2 ^ 63 - 1
    | cs => if stopsAtNonDigit cs 0 = true then 0 else 2 ^ 63 - 1

/-- The struct `cache.RedisConfig`. -/
structure RedisConfig where
  Host : String
  Port : Int
  Password : String
  deriving DecidableEq, Repr

/-- The function `cache.NewRedisConfig`. -/
def NewRedisConfig (env : Environ) : RedisConfig :=
  { Host := getEnv env "REDIS_HOST" "localhost"
    Port := atoiValue (getEnv env "REDIS_PORT" "6379")
    Password := getEnv env "REDIS_PASSWORD" "" }

/-- A sample environment: the variables of the "Custom values" tests. -/
def customEnv : Environ := fun key =>
  if key = "DB_HOST" then some "testhost"
  else if key = "DB_PORT" then some "5433"
  else if key = "DB_USER" then some "testuser"
  else if key = "DB_PASSWORD" then some "testpass"
  else if key = "DB_NAME" then some "testdb"
  else if key = "DB_SSLMODE" then some "require"
  else if key = "REDIS_HOST" then some "testhost"
  else if key = "REDIS_PORT" then some "6380"
  else if key = "REDIS_PASSWORD" then some "testpass"
  else none

/-- A sample environment: every variable set to the empty string, as in the
"Default values" tests. -/
def blankEnv : Environ := fun _ => some ""

/-- A sample environment in which `REDIS_PORT` is set to a text that is not a number. -/
def badPortEnv : Environ := fun key => if key = "REDIS_PORT" then some "abc" else none

/-- Whether a step leaves no write half done: the cache write of an update or
a delete succeeds, and the store raises no error after the update or the
delete has run (`scanErr`, `rowsAffectedErr`).  An error that keeps the
statement from running, and any fault of a create, get or list, is allowed. -/
def Step.settled : Step → Bool
  | .update _ _ _ fl => fl.setErr.isNone && fl.scanErr.isNone
  | .delete _ fl => fl.delErr.isNone && fl.rowsAffectedErr.isNone
  | _ => true

/-- Whether every cache command of a step succeeds. -/
def Step.cacheOK : Step → Bool
  | .create _ _ fl => fl.getErr.isNone && fl.setErr.isNone && fl.delErr.isNone
  | .get _ fl => fl.getErr.isNone && fl.setErr.isNone && fl.delErr.isNone
  | .update _ _ _ fl => fl.getErr.isNone && fl.setErr.isNone && fl.delErr.isNone
  | .delete _ fl => fl.getErr.isNone && fl.setErr.isNone && fl.delErr.isNone
  | .list _ _ fl => fl.getErr.isNone && fl.setErr.isNone && fl.delErr.isNone
  | .expire _ => true

/-- The cache agrees with the store: every entry is the serialization, under
its own key, of the row the table now holds for that id. -/
def Agrees (s : Sys) : Prop :=
  ∀ e ∈ s.cache, ∃ t : Task, s.rows.find? (fun r => r.ID == t.ID) = some t ∧
    e.key = cacheKey t.ID ∧ e.value = jsonMarshal t

/-- Faults of a call in which reading the row count of a delete fails. -/
def rowCountLost : Faults := ⟨none, none, none, none, none, none,
  some "driver: bad connection"⟩

/-- Faults of a call in which reading the row an update returns fails. -/
def rowLost : Faults := ⟨none, none, none, none, some "driver: bad connection", none, none⟩

/-- The key a cache operation is issued on; `none` for a store operation. -/
def Effect.keyOf : Effect → Option String
  | .cacheGet key => some key
  | .cacheSet key _ _ => some key
  | .cacheDel key => some key
  | _ => none

/-- The sample store with cache entries for the ids 1 and 2. -/
def twoEntriesSys : Sys := ⟨[sampleTask], 3, [⟨"task:1", "v1", Hour⟩, ⟨"task:2", "v2", Hour⟩]⟩

/-! ## Theorems -/

/-- C1. On a cache hit `GetTask` answers 200 with the cached value as the body,
byte for byte; the only operation it issues is the cache lookup (no store
operation, no cache write) and the state is left as it was. -/
theorem getTask_cache_hit (idParam : String) (taskID : Int) (fl : Faults) (s : Sys) (v : String)
    (hid : ParseInt idParam = some taskID)
    (hhit : redisGet fl s.cache (cacheKey taskID) = .ok v) :
    (GetTask idParam fl s).resp.status = 200 ∧
    (GetTask idParam fl s).resp.body = v ∧
    (GetTask idParam fl s).effects = [.cacheGet (cacheKey taskID)] ∧
    (∀ e ∈ (GetTask idParam fl s).effects, e.isStoreOp = false ∧ e.isCacheMutation = false) ∧
    (GetTask idParam fl s).sys = s := by
  simp [GetTask, hid, hhit, jsonResponse, Effect.isStoreOp, Effect.isCacheMutation]

/-- Witness of C1: the sample cache entry for id 1 is served as it is. -/
theorem getTask_cache_hit_witness :
    (GetTask "1" noFaults sampleCachedSys).resp.status = 200 ∧
    (GetTask "1" noFaults sampleCachedSys).resp.body = "v" ∧
    (GetTask "1" noFaults sampleCachedSys).effects = [.cacheGet (cacheKey 1)] ∧
    (∀ e ∈ (GetTask "1" noFaults sampleCachedSys).effects,
      e.isStoreOp = false ∧ e.isCacheMutation = false) ∧
    (GetTask "1" noFaults sampleCachedSys).sys = sampleCachedSys :=
  getTask_cache_hit "1" 1 noFaults sampleCachedSys "v" (by decide) (by decide)

/-- C2. On a cache miss `GetTask` queries the store by id.  When the store
reports no row the answer is 404 and nothing is written to the cache; when it
returns a record the answer is 200 with that record and exactly one cache set
is issued, on the key `task:<decimal id>`, with the JSON serialization of that
record as its value and one hour as its expiration. -/
theorem getTask_cache_miss (idParam : String) (taskID : Int) (fl : Faults) (s : Sys)
    (e : CacheErr) (hid : ParseInt idParam = some taskID)
    (hmiss : redisGet fl s.cache (cacheKey taskID) = .err e) :
    (selectTask fl s.rows taskID = .err .ErrNoRows →
      (GetTask idParam fl s).resp = httpError "Task not found" 404 ∧
      (GetTask idParam fl s).effects =
        [.cacheGet (cacheKey taskID), .dbSelect taskID (.err .ErrNoRows)] ∧
      (GetTask idParam fl s).sys = s) ∧
    (∀ task, selectTask fl s.rows taskID = .ok task →
      (GetTask idParam fl s).resp = jsonResponse 200 (jsonEncode task) ∧
      (GetTask idParam fl s).effects =
        [.cacheGet (cacheKey taskID), .dbSelect taskID (.ok task),
          .cacheSet ("task:" ++ formatInt taskID) (jsonMarshal task) (3600 * 1000000000)] ∧
      (GetTask idParam fl s).sys.rows = s.rows) := by
  constructor
  · intro hsel
    simp [GetTask, hid, hmiss, hsel]
  · intro task hsel
    simp only [GetTask, hid, hmiss, hsel]
    simp [cacheKey, Hour]

/-- Witness of C2: with an empty cache, id 1 is read from the sample store and
cached, and id 7, which the store does not hold, is answered 404. -/
theorem getTask_cache_miss_witness :
    ((GetTask "1" noFaults sampleSys).resp = jsonResponse 200 (jsonEncode sampleTask) ∧
      (GetTask "1" noFaults sampleSys).effects =
        [.cacheGet (cacheKey 1), .dbSelect 1 (.ok sampleTask),
          .cacheSet ("task:" ++ formatInt 1) (jsonMarshal sampleTask) (3600 * 1000000000)] ∧
      (GetTask "1" noFaults sampleSys).sys.rows = sampleSys.rows) ∧
    ((GetTask "7" noFaults sampleSys).resp = httpError "Task not found" 404 ∧
      (GetTask "7" noFaults sampleSys).effects =
        [.cacheGet (cacheKey 7), .dbSelect 7 (.err .ErrNoRows)] ∧
      (GetTask "7" noFaults sampleSys).sys = sampleSys) :=
  ⟨(getTask_cache_miss "1" 1 noFaults sampleSys .Nil (by decide) (by decide)).2 sampleTask
      (by decide),
    (getTask_cache_miss "7" 7 noFaults sampleSys .Nil (by decide) (by decide)).1 (by decide)⟩

/-- C3. Whatever error the cache lookup returns (the key-absent signal or any
other error), in whatever cache state, the response of `GetTask` is the one it
gives for a plain miss on the same store: the error never reaches the caller
and the store is queried. -/
theorem getTask_cache_error_as_miss (idParam : String) (taskID : Int) (fl fl0 : Faults)
    (s s0 : Sys) (e : CacheErr) (hid : ParseInt idParam = some taskID)
    (herr : redisGet fl s.cache (cacheKey taskID) = .err e)
    (hmiss : redisGet fl0 s0.cache (cacheKey taskID) = .err .Nil)
    (hrows : s.rows = s0.rows) (hquery : fl.queryErr = fl0.queryErr)
    (hscan : fl.scanErr = fl0.scanErr) :
    (GetTask idParam fl s).resp = (GetTask idParam fl0 s0).resp ∧
    .dbSelect taskID (selectTask fl s.rows taskID) ∈ (GetTask idParam fl s).effects := by
  have hsel : selectTask fl s.rows taskID = selectTask fl0 s0.rows taskID := by
    simp [selectTask, hrows, hquery, hscan]
  simp only [GetTask, hid, herr, hmiss, ← hsel]
  cases h : selectTask fl s.rows taskID with
  | err d => cases d <;> simp
  | ok task => simp

/-- Witness of C3: with the cache down and a leftover entry for id 1, the
answer for id 1 is the one given on a plain miss with an empty cache. -/
theorem getTask_cache_error_as_miss_witness :
    (GetTask "1" cacheDown sampleCachedSys).resp = (GetTask "1" noFaults sampleSys).resp ∧
    .dbSelect 1 (selectTask cacheDown sampleCachedSys.rows 1) ∈
      (GetTask "1" cacheDown sampleCachedSys).effects :=
  getTask_cache_error_as_miss "1" 1 cacheDown noFaults sampleCachedSys sampleSys
    (.other "dial tcp: connection refused") (by decide) (by decide) (by decide) (by decide)
    (by decide) (by decide)

/-- A value just set is what the next lookup of its key finds. -/
theorem cacheLookup_redisSet (fl : Faults) (c : List Entry) (key value : String) (ttl : Int)
    (hset : fl.setErr = none) : cacheLookup (redisSet fl c key value ttl) key = some value := by
  simp [cacheLookup, redisSet, hset]

/-- A string followed by a newline is not the string itself. -/
theorem append_newline_ne (x : String) : x ++ "\n" ≠ x := by
  intro h
  have hlen := congrArg String.length h
  simp only [String.length_append] at hlen
  have hone : "\n".length = 1 := by decide
  omega

/-- A second `GetTask` after one that filled the cache is served from the cache
with the bare serialization. -/
theorem getTask_after_fill (idParam : String) (taskID : Int) (fl1 fl2 : Faults) (s : Sys)
    (e : CacheErr) (task : Task) (hid : ParseInt idParam = some taskID)
    (hmiss : redisGet fl1 s.cache (cacheKey taskID) = .err e)
    (hsel : selectTask fl1 s.rows taskID = .ok task)
    (hset : fl1.setErr = none) (hget : fl2.getErr = none) :
    GetTask idParam fl1 s = ⟨jsonResponse 200 (jsonEncode task),
      [.cacheGet (cacheKey taskID), .dbSelect taskID (.ok task),
        .cacheSet (cacheKey taskID) (jsonMarshal task) Hour],
      { s with cache := redisSet fl1 s.cache (cacheKey taskID) (jsonMarshal task) Hour }⟩ ∧
    GetTask idParam fl2 (GetTask idParam fl1 s).sys =
      ⟨jsonResponse 200 (jsonMarshal task), [.cacheGet (cacheKey taskID)],
        (GetTask idParam fl1 s).sys⟩ := by
  have h1 : GetTask idParam fl1 s = ⟨jsonResponse 200 (jsonEncode task),
      [.cacheGet (cacheKey taskID), .dbSelect taskID (.ok task),
        .cacheSet (cacheKey taskID) (jsonMarshal task) Hour],
      { s with cache := redisSet fl1 s.cache (cacheKey taskID) (jsonMarshal task) Hour }⟩ := by
    simp only [GetTask, hid, hmiss, hsel]
  refine ⟨h1, ?_⟩
  rw [h1]
  simp only [GetTask, hid, redisGet, hget, cacheLookup_redisSet fl1 _ _ _ _ hset]

/-- C4, as the code has it. For an id the store holds, when `GetTask` runs on
a cache miss with its cache set succeeding and runs again for the same id with
nothing in between, the second call issues the cache lookup only (no store
operation) and answers 200 with the JSON serialization of the record; the first
body is that same serialization followed by a newline, so the two bodies carry
the same JSON text and differ in the final newline byte. -/
theorem getTask_repeat (idParam : String) (taskID : Int) (fl1 fl2 : Faults) (s : Sys)
    (e : CacheErr) (task : Task) (hid : ParseInt idParam = some taskID)
    (hmiss : redisGet fl1 s.cache (cacheKey taskID) = .err e)
    (hsel : selectTask fl1 s.rows taskID = .ok task)
    (hset : fl1.setErr = none) (hget : fl2.getErr = none) :
    (GetTask idParam fl1 s).resp.body = jsonMarshal task ++ "\n" ∧
    (GetTask idParam fl2 (GetTask idParam fl1 s).sys).resp.status = 200 ∧
    (GetTask idParam fl2 (GetTask idParam fl1 s).sys).resp.body = jsonMarshal task ∧
    (GetTask idParam fl1 s).resp.body =
      (GetTask idParam fl2 (GetTask idParam fl1 s).sys).resp.body ++ "\n" ∧
    (GetTask idParam fl2 (GetTask idParam fl1 s).sys).effects = [.cacheGet (cacheKey taskID)] ∧
    (∀ x ∈ (GetTask idParam fl2 (GetTask idParam fl1 s).sys).effects, x.isStoreOp = false) := by
  obtain ⟨h1, h2⟩ := getTask_after_fill idParam taskID fl1 fl2 s e task hid hmiss hsel hset hget
  rw [h2]
  rw [h1]
  simp [jsonResponse, jsonEncode, Effect.isStoreOp]

/-- Witness of the amended C4 on the sample store. -/
theorem getTask_repeat_witness :
    (GetTask "1" noFaults sampleSys).resp.body = jsonMarshal sampleTask ++ "\n" ∧
    (GetTask "1" noFaults (GetTask "1" noFaults sampleSys).sys).resp.status = 200 ∧
    (GetTask "1" noFaults (GetTask "1" noFaults sampleSys).sys).resp.body
      = jsonMarshal sampleTask ∧
    (GetTask "1" noFaults sampleSys).resp.body =
      (GetTask "1" noFaults (GetTask "1" noFaults sampleSys).sys).resp.body ++ "\n" ∧
    (GetTask "1" noFaults (GetTask "1" noFaults sampleSys).sys).effects
      = [.cacheGet (cacheKey 1)] ∧
    (∀ x ∈ (GetTask "1" noFaults (GetTask "1" noFaults sampleSys).sys).effects,
      x.isStoreOp = false) :=
  getTask_repeat "1" 1 noFaults noFaults sampleSys .Nil sampleTask (by decide) (by decide)
    (by decide) (by decide) (by decide)

/-- Counterexample to C4 as stated: on the sample store, with an empty cache
and no fault, the first `GetTask` for id 1 misses the cache and finds the row,
its cache set takes effect, the second `GetTask` issues no store operation, and
yet the second body is not byte-identical to the first. -/
theorem second_get_body_differs :
    ParseInt "1" = some 1 ∧
    redisGet noFaults sampleSys.cache (cacheKey 1) = .err .Nil ∧
    selectTask noFaults sampleSys.rows 1 = .ok sampleTask ∧
    cacheLookup (GetTask "1" noFaults sampleSys).sys.cache (cacheKey 1)
      = some (jsonMarshal sampleTask) ∧
    (∀ x ∈ (GetTask "1" noFaults (GetTask "1" noFaults sampleSys).sys).effects,
      x.isStoreOp = false) ∧
    (GetTask "1" noFaults (GetTask "1" noFaults sampleSys).sys).resp.body ≠
      (GetTask "1" noFaults sampleSys).resp.body := by
  obtain ⟨h1, h2⟩ := getTask_after_fill "1" 1 noFaults noFaults sampleSys .Nil sampleTask
    (by decide) (by decide) (by decide) (by decide) (by decide)
  refine ⟨by decide, by decide, by decide, ?_, ?_, ?_⟩
  · rw [h1]
    exact cacheLookup_redisSet noFaults _ _ _ _ rfl
  · rw [h2]
    simp [Effect.isStoreOp]
  · rw [h2, h1]
    exact fun h => append_newline_ne _ h.symm

/-- The row an update returns is the row a select by the same id finds afterwards. -/
theorem updateTask_ok_find (fl : Faults) (rows rows1 : List Task) (a b c : Option String)
    (now : Time) (id : Int) (task : Task)
    (hupd : updateTask fl rows a b c now id = (.ok task, rows1)) :
    rows1.find? (fun r => r.ID == id) = some task := by
  unfold updateTask at hupd
  cases hq : fl.queryErr with
  | some msg => simp [hq] at hupd
  | none =>
    simp only [hq] at hupd
    cases hf : (rows.map (fun r => if r.ID = id then coalesceRow a b c now r else r)).find?
        (fun r => r.ID == id) with
    | none => simp [hf] at hupd
    | some t =>
      simp only [hf] at hupd
      cases hs : fl.scanErr with
      | some msg => simp [hs] at hupd
      | none =>
        simp only [hs, Prod.mk.injEq, Res.ok.injEq] at hupd
        obtain ⟨ht, hr⟩ := hupd
        rw [← hr, ← ht]
        exact hf

/-- After a delete, no lookup of the key finds an entry. -/
theorem cacheLookup_filter_ne (c : List Entry) (key : String) :
    cacheLookup (c.filter (fun e => e.key != key)) key = none := by
  simp [cacheLookup, List.find?_eq_none]

/-- C5. When `UpdateTask` succeeds for a valid request (the store returns the
post-update record) and its cache set takes effect, a `GetTask` for the same id
issued right afterwards answers 200 with that post-update record, whatever the
cache held before: served from the cache when the lookup works, and read back
from the store when the lookup fails and the store answers.  In both cases the
title, description, status and updated_at returned are those of the
post-update record. -/
theorem getTask_after_update (idParam : String) (taskID : Int) (body : Body)
    (req : UpdateTaskRequest) (now : Time) (fl1 fl2 : Faults) (s : Sys) (task : Task)
    (rows1 : List Task) (hid : ParseInt idParam = some taskID)
    (hdec : decodeUpdateTaskRequest body = some req)
    (hval : req.Status = "" ∨ req.Status = "pending" ∨ req.Status = "in_progress"
      ∨ req.Status = "completed")
    (hupd : updateTask fl1 s.rows (nullString req.Title) (nullString req.Description)
      (nullString req.Status) now taskID = (.ok task, rows1))
    (hset : fl1.setErr = none)
    (hstore : fl2.getErr = none ∨ (fl2.queryErr = none ∧ fl2.scanErr = none)) :
    (UpdateTask idParam body now fl1 s).resp = jsonResponse 200 (jsonEncode task) ∧
    (GetTask idParam fl2 (UpdateTask idParam body now fl1 s).sys).resp.status = 200 ∧
    ((GetTask idParam fl2 (UpdateTask idParam body now fl1 s).sys).resp.body = jsonMarshal task ∨
     (GetTask idParam fl2 (UpdateTask idParam body now fl1 s).sys).resp.body = jsonEncode task) ∧
    ∃ t : Task, t.Title = task.Title ∧ t.Description = task.Description ∧
      t.Status = task.Status ∧ t.UpdatedAt = task.UpdatedAt ∧
      ((GetTask idParam fl2 (UpdateTask idParam body now fl1 s).sys).resp.body = jsonMarshal t ∨
       (GetTask idParam fl2 (UpdateTask idParam body now fl1 s).sys).resp.body = jsonEncode t) := by
  have hnot : ¬ (req.Status ≠ "" ∧ req.Status ≠ "pending" ∧ req.Status ≠ "in_progress"
      ∧ req.Status ≠ "completed") := by
    rcases hval with h | h | h | h <;> simp [h]
  have hU : UpdateTask idParam body now fl1 s = ⟨jsonResponse 200 (jsonEncode task),
      [.dbUpdate (nullString req.Title) (nullString req.Description) (nullString req.Status)
        now taskID (.ok task), .cacheSet (cacheKey taskID) (jsonMarshal task) Hour],
      { s with rows := rows1
               cache := redisSet fl1 s.cache (cacheKey taskID) (jsonMarshal task) Hour }⟩ := by
    simp only [UpdateTask, hid, hdec, if_neg hnot, hupd]
  have hfind := updateTask_ok_find fl1 s.rows rows1 _ _ _ now taskID task hupd
  rw [hU]
  refine ⟨rfl, ?_⟩
  cases hg : fl2.getErr with
  | none =>
    have hG : (GetTask idParam fl2 ⟨rows1, s.nextID,
        redisSet fl1 s.cache (cacheKey taskID) (jsonMarshal task) Hour⟩).resp
        = jsonResponse 200 (jsonMarshal task) := by
      simp only [GetTask, hid, redisGet, hg, cacheLookup_redisSet fl1 _ _ _ _ hset]
    rw [hG]
    exact ⟨rfl, Or.inl rfl, task, rfl, rfl, rfl, rfl, Or.inl rfl⟩
  | some msg =>
    rcases hstore with h | ⟨hq, hs⟩
    · simp [hg] at h
    · have hG : (GetTask idParam fl2 ⟨rows1, s.nextID,
          redisSet fl1 s.cache (cacheKey taskID) (jsonMarshal task) Hour⟩).resp
          = jsonResponse 200 (jsonEncode task) := by
        simp only [GetTask, hid, redisGet, hg, selectTask, hq, hs, hfind]
      rw [hG]
      exact ⟨rfl, Or.inr rfl, task, rfl, rfl, rfl, rfl, Or.inr rfl⟩

/-- Witness of C5: the sample task, cached in its old form, is updated to
`completed`; the following `GetTask` answers with the updated record. -/
theorem getTask_after_update_witness :
    (UpdateTask "1" (.object [("status", .string "completed")]) sampleLater noFaults
      sampleCachedSys).resp
      = jsonResponse 200 (jsonEncode ⟨1, "a", "", "completed", sampleTime, sampleLater⟩) ∧
    (GetTask "1" noFaults (UpdateTask "1" (.object [("status", .string "completed")])
      sampleLater noFaults sampleCachedSys).sys).resp.status = 200 ∧
    ((GetTask "1" noFaults (UpdateTask "1" (.object [("status", .string "completed")])
      sampleLater noFaults sampleCachedSys).sys).resp.body
        = jsonMarshal ⟨1, "a", "", "completed", sampleTime, sampleLater⟩ ∨
     (GetTask "1" noFaults (UpdateTask "1" (.object [("status", .string "completed")])
      sampleLater noFaults sampleCachedSys).sys).resp.body
        = jsonEncode ⟨1, "a", "", "completed", sampleTime, sampleLater⟩) ∧
    ∃ t : Task, t.Title = "a" ∧ t.Description = "" ∧ t.Status = "completed" ∧
      t.UpdatedAt = sampleLater ∧
      ((GetTask "1" noFaults (UpdateTask "1" (.object [("status", .string "completed")])
        sampleLater noFaults sampleCachedSys).sys).resp.body = jsonMarshal t ∨
       (GetTask "1" noFaults (UpdateTask "1" (.object [("status", .string "completed")])
        sampleLater noFaults sampleCachedSys).sys).resp.body = jsonEncode t) :=
  getTask_after_update "1" 1 (.object [("status", .string "completed")])
    ⟨"", "", "completed"⟩ sampleLater noFaults noFaults sampleCachedSys
    ⟨1, "a", "", "completed", sampleTime, sampleLater⟩
    [⟨1, "a", "", "completed", sampleTime, sampleLater⟩]
    (by decide) (by decide) (by decide) (by decide) (by decide) (Or.inl (by decide))

/-- C6. After `DeleteTask` answers 204 and its cache delete takes effect, a
`GetTask` for the same id issued right afterwards answers 404, whether or not
the cache held an entry for the id before and whether or not the cache lookup
of that `GetTask` works, as long as the store answers the query. -/
theorem getTask_after_delete (idParam : String) (fl1 fl2 : Faults) (s : Sys)
    (hok : (DeleteTask idParam fl1 s).resp.status = 204)
    (hdel : fl1.delErr = none) (hquery : fl2.queryErr = none) :
    (GetTask idParam fl2 (DeleteTask idParam fl1 s).sys).resp = httpError "Task not found" 404 ∧
    (GetTask idParam fl2 (DeleteTask idParam fl1 s).sys).resp.status = 404 := by
  cases hid : ParseInt idParam with
  | none => simp [DeleteTask, hid, httpError] at hok
  | some taskID =>
    cases hq : fl1.queryErr with
    | some msg => simp [DeleteTask, hid, deleteTask, hq, httpError] at hok
    | none =>
      cases hr : fl1.rowsAffectedErr with
      | some msg => simp [DeleteTask, hid, deleteTask, hq, hr, httpError] at hok
      | none =>
        by_cases hz : (s.rows.filter (fun r => r.ID == taskID)).length = 0
        · simp [DeleteTask, hid, deleteTask, hq, hr, hz, httpError] at hok
        · have hD : (DeleteTask idParam fl1 s).sys =
              ⟨s.rows.filter (fun r => r.ID != taskID), s.nextID,
                s.cache.filter (fun e => e.key != cacheKey taskID)⟩ := by
            simp only [DeleteTask, hid, deleteTask, hq, hr, if_neg hz, redisDel, hdel]
          have hfind : (s.rows.filter (fun r => r.ID != taskID)).find? (fun r => r.ID == taskID)
              = none := by
            simp [List.find?_eq_none]
          have hG : (GetTask idParam fl2 ⟨s.rows.filter (fun r => r.ID != taskID), s.nextID,
              s.cache.filter (fun e => e.key != cacheKey taskID)⟩).resp
              = httpError "Task not found" 404 := by
            cases hg : fl2.getErr with
            | none =>
              simp only [GetTask, hid, redisGet, hg, cacheLookup_filter_ne, selectTask, hquery,
                hfind]
            | some msg =>
              simp only [GetTask, hid, redisGet, hg, selectTask, hquery, hfind]
          rw [hD, hG]
          exact ⟨rfl, rfl⟩

/-- Witness of C6: the sample task is deleted while the cache holds an entry
for it; the following `GetTask` answers 404. -/
theorem getTask_after_delete_witness :
    (GetTask "1" noFaults (DeleteTask "1" noFaults sampleCachedSys).sys).resp
      = httpError "Task not found" 404 ∧
    (GetTask "1" noFaults (DeleteTask "1" noFaults sampleCachedSys).sys).resp.status = 404 :=
  getTask_after_delete "1" noFaults noFaults sampleCachedSys (by decide) (by decide) (by decide)

/-- The character written for a decimal digit has the digit's code point. -/
theorem digit_char_toNat (k : Nat) (hk : k < 10) : (Char.ofNat (48 + k)).toNat = 48 + k := by
  interval_cases k <;> rfl

/-- Reading a run of digits continues from the value of its first part. -/
theorem digitsValue_append (l1 l2 : List Char) (acc : Nat) :
    digitsValue (l1 ++ l2) acc =
      match digitsValue l1 acc with
      | some a => digitsValue l2 a
      | none => none := by
  induction l1 generalizing acc with
  | nil => simp [digitsValue]
  | cons c cs ih =>
    simp only [List.cons_append, digitsValue]
    split
    · exact ih _
    · rfl

/-- Reading back the decimal digits of a number gives the number. -/
theorem digitsValue_decimalDigits (fuel n : Nat) (h : n < fuel) :
    digitsValue (decimalDigits fuel n) 0 = some n := by
  induction fuel generalizing n with
  | zero => omega
  | succ f ih =>
    unfold decimalDigits
    by_cases hn : n < 10
    · simp only [if_pos hn, digitsValue, digit_char_toNat n hn]
      have h1 : 48 ≤ 48 + n ∧ 48 + n ≤ 57 := by omega
      simp only [h1, and_self, if_true]
      congr 1
      omega
    · simp only [if_neg hn]
      rw [digitsValue_append, ih (n / 10) (by omega)]
      have hm : n % 10 < 10 := Nat.mod_lt _ (by decide)
      simp only [digitsValue, digit_char_toNat (n % 10) hm]
      have h1 : 48 ≤ 48 + n % 10 ∧ 48 + n % 10 ≤ 57 := by omega
      simp only [h1, and_self, if_true]
      congr 1
      omega

/-- The decimal text of an integer determines the integer. -/
theorem formatInt_injective (a b : Int) (h : formatInt a = formatInt b) : a = b := by
  cases a with
  | ofNat m =>
    cases b with
    | ofNat k =>
      have h2 := congrArg (fun x : String => digitsValue x.data 0) h
      simp only [formatInt, digitsValue_decimalDigits (m + 1) m (by omega),
        digitsValue_decimalDigits (k + 1) k (by omega), Option.some.injEq] at h2
      rw [h2]
    | negSucc k =>
      have h2 := congrArg (fun x : String => digitsValue x.data 0) h
      simp only [formatInt, digitsValue_decimalDigits (m + 1) m (by omega)] at h2
      simp [digitsValue] at h2
  | negSucc m =>
    cases b with
    | ofNat k =>
      have h2 := congrArg (fun x : String => digitsValue x.data 0) h
      simp only [formatInt, digitsValue_decimalDigits (k + 1) k (by omega)] at h2
      simp [digitsValue] at h2
    | negSucc k =>
      have h2 := congrArg (fun x : String => digitsValue x.data.tail 0) h
      simp only [formatInt, List.tail_cons,
        digitsValue_decimalDigits (m + 2) (m + 1) (by omega),
        digitsValue_decimalDigits (k + 2) (k + 1) (by omega), Option.some.injEq] at h2
      have h3 : m = k := by omega
      rw [h3]

/-- Two ids with the same cache key are the same id. -/
theorem cacheKey_eq (a b : Int) (h : cacheKey a = cacheKey b) : a = b := by
  apply formatInt_injective
  unfold cacheKey at h
  have h2 := congrArg String.data h
  simp only [String.data_append, List.append_cancel_left_eq] at h2
  exact String.ext h2

/-- A row found by id is a row of the table and carries that id. -/
theorem find_id_some (rows : List Task) (id : Int) (t : Task)
    (h : rows.find? (fun r => r.ID == id) = some t) : t ∈ rows ∧ t.ID = id := by
  refine ⟨List.mem_of_find?_eq_some h, ?_⟩
  have := List.find?_some h
  simpa using this

/-- A record the select returns is a row of the table and carries the id asked for. -/
theorem selectTask_ok (fl : Faults) (rows : List Task) (id : Int) (t : Task)
    (h : selectTask fl rows id = .ok t) : t ∈ rows ∧ t.ID = id := by
  unfold selectTask at h
  cases hq : fl.queryErr with
  | some msg => simp [hq] at h
  | none =>
    simp only [hq] at h
    cases hf : rows.find? (fun r => r.ID == id) with
    | none => simp [hf] at h
    | some t1 =>
      simp only [hf] at h
      cases hs : fl.scanErr with
      | some msg => simp [hs] at h
      | none =>
        simp only [hs, Res.ok.injEq] at h
        rw [← h]
        exact find_id_some rows id t1 hf

/-- An entry of the cache after a set is an old entry or the entry set. -/
theorem mem_redisSet (fl : Faults) (c : List Entry) (key value : String) (ttl : Int) (e : Entry)
    (h : e ∈ redisSet fl c key value ttl) : e ∈ c ∨ (e.key = key ∧ e.value = value) := by
  unfold redisSet at h
  cases hs : fl.setErr with
  | some msg =>
    simp only [hs] at h
    exact Or.inl h
  | none =>
    simp only [hs, List.mem_cons, List.mem_filter] at h
    rcases h with h | h
    · right
      rw [h]
      exact ⟨rfl, rfl⟩
    · exact Or.inl h.1

/-- An entry of the cache after a delete is an old entry. -/
theorem mem_redisDel (fl : Faults) (c : List Entry) (key : String) (e : Entry)
    (h : e ∈ redisDel fl c key) : e ∈ c := by
  unfold redisDel at h
  cases hs : fl.delErr with
  | some msg =>
    simp only [hs] at h
    exact h
  | none =>
    simp only [hs, List.mem_filter] at h
    exact h.1

/-- `CreateTask` leaves the cache as it was. -/
theorem createTask_cache (body : Body) (now : Time) (fl : Faults) (s : Sys) :
    (CreateTask body now fl s).sys.cache = s.cache := by
  unfold CreateTask
  cases decodeCreateTaskRequest body with
  | none => rfl
  | some req =>
    by_cases ht : req.Title = ""
    · simp only [if_pos ht]
    · simp only [if_neg ht, insertTask]
      cases fl.queryErr with
      | some msg => rfl
      | none =>
        cases fl.scanErr with
        | some msg => rfl
        | none => rfl

/-- `ListTasks` leaves both collaborators as they were. -/
theorem listTasks_sys (pageStr sizeStr : String) (fl : Faults) (s : Sys) :
    (ListTasks pageStr sizeStr fl s).sys = s := by
  simp only [ListTasks]
  split
  · rfl
  · split
    · rfl
    · split <;> rfl

/-- Every cache entry after `GetTask` was there before or is the serialization,
under its own key, of a row of the table. -/
theorem getTask_cache_mem (idParam : String) (fl : Faults) (s : Sys) (e : Entry)
    (h : e ∈ (GetTask idParam fl s).sys.cache) :
    e ∈ s.cache ∨ ∃ t ∈ (GetTask idParam fl s).sys.rows,
      e.key = cacheKey t.ID ∧ e.value = jsonMarshal t := by
  unfold GetTask at h ⊢
  cases hid : ParseInt idParam with
  | none =>
    simp only [hid] at h
    exact Or.inl h
  | some taskID =>
    simp only [hid] at h ⊢
    cases hg : redisGet fl s.cache (cacheKey taskID) with
    | ok v =>
      simp only [hg] at h
      exact Or.inl h
    | err ce =>
      simp only [hg] at h ⊢
      cases hsel : selectTask fl s.rows taskID with
      | err d =>
        cases d with
        | ErrNoRows =>
          simp only [hsel] at h
          exact Or.inl h
        | other msg =>
          simp only [hsel] at h
          exact Or.inl h
      | ok task =>
        simp only [hsel] at h ⊢
        rcases mem_redisSet fl s.cache _ _ _ e h with h1 | ⟨hk, hv⟩
        · exact Or.inl h1
        · obtain ⟨hmem, htid⟩ := selectTask_ok fl s.rows taskID task hsel
          exact Or.inr ⟨task, hmem, by rw [hk, htid], hv⟩

/-- Every cache entry after `UpdateTask` was there before or is the
serialization, under its own key, of a row of the table as updated. -/
theorem updateTask_cache_mem (idParam : String) (body : Body) (now : Time) (fl : Faults)
    (s : Sys) (e : Entry) (h : e ∈ (UpdateTask idParam body now fl s).sys.cache) :
    e ∈ s.cache ∨ ∃ t ∈ (UpdateTask idParam body now fl s).sys.rows,
      e.key = cacheKey t.ID ∧ e.value = jsonMarshal t := by
  unfold UpdateTask at h ⊢
  cases hid : ParseInt idParam with
  | none =>
    simp only [hid] at h
    exact Or.inl h
  | some taskID =>
    simp only [hid] at h ⊢
    cases hdec : decodeUpdateTaskRequest body with
    | none =>
      simp only [hdec] at h
      exact Or.inl h
    | some req =>
      simp only [hdec] at h ⊢
      by_cases hst : req.Status ≠ "" ∧ req.Status ≠ "pending" ∧ req.Status ≠ "in_progress"
          ∧ req.Status ≠ "completed"
      · simp only [if_pos hst] at h
        exact Or.inl h
      · simp only [if_neg hst] at h ⊢
        cases hupd : updateTask fl s.rows (nullString req.Title) (nullString req.Description)
            (nullString req.Status) now taskID with
        | mk res rows1 =>
          cases res with
          | err d =>
            cases d with
            | ErrNoRows =>
              simp only [hupd] at h
              exact Or.inl h
            | other msg =>
              simp only [hupd] at h
              exact Or.inl h
          | ok task =>
            simp only [hupd] at h ⊢
            rcases mem_redisSet fl s.cache _ _ _ e h with h1 | ⟨hk, hv⟩
            · exact Or.inl h1
            · obtain ⟨hmem, htid⟩ := find_id_some rows1 taskID task
                (updateTask_ok_find fl s.rows rows1 _ _ _ now taskID task hupd)
              exact Or.inr ⟨task, hmem, by rw [hk, htid], hv⟩

/-- Every cache entry after `DeleteTask` was there before. -/
theorem deleteTask_cache_mem (idParam : String) (fl : Faults) (s : Sys) (e : Entry)
    (h : e ∈ (DeleteTask idParam fl s).sys.cache) : e ∈ s.cache := by
  unfold DeleteTask at h
  cases hid : ParseInt idParam with
  | none =>
    simp only [hid] at h
    exact h
  | some taskID =>
    simp only [hid] at h
    cases hdel : deleteTask fl s.rows taskID with
    | mk res rows1 =>
      cases res with
      | err msg =>
        simp only [hdel] at h
        exact h
      | ok n =>
        simp only [hdel] at h
        cases hr : fl.rowsAffectedErr with
        | some msg =>
          simp only [hr] at h
          exact h
        | none =>
          simp only [hr] at h
          by_cases hz : n = 0
          · simp only [if_pos hz] at h
            exact h
          · simp only [if_neg hz] at h
            exact mem_redisDel fl s.cache _ e h

/-- Every cache entry after a step was there before the step or is the
serialization, under its own key, of a row the table holds after the step. -/
theorem step_cache_mem (s : Sys) (st : Step) (e : Entry) (h : e ∈ (step s st).cache) :
    e ∈ s.cache ∨ ∃ t ∈ (step s st).rows, e.key = cacheKey t.ID ∧ e.value = jsonMarshal t := by
  cases st with
  | create body now fl =>
    simp only [step, createTask_cache] at h
    exact Or.inl h
  | get idParam fl => exact getTask_cache_mem idParam fl s e h
  | update idParam body now fl => exact updateTask_cache_mem idParam body now fl s e h
  | delete idParam fl => exact Or.inl (deleteTask_cache_mem idParam fl s e h)
  | list pageStr sizeStr fl =>
    simp only [step, listTasks_sys] at h
    exact Or.inl h
  | expire key =>
    simp only [step, List.mem_filter] at h
    exact Or.inl h.1

/-- A run starts in its initial state. -/
theorem mem_trajectory_self (s : Sys) (steps : List Step) : s ∈ trajectory s steps := by
  cases steps <;> simp [trajectory]

/-- Every cache entry after a run was there before the run or is the
serialization, under its own key, of a row held by a state the run passed. -/
theorem run_cache_mem (steps : List Step) (s : Sys) (e : Entry)
    (h : e ∈ (run s steps).cache) :
    e ∈ s.cache ∨ ∃ s1 ∈ trajectory s steps, ∃ t ∈ s1.rows,
      e.key = cacheKey t.ID ∧ e.value = jsonMarshal t := by
  induction steps generalizing s with
  | nil =>
    exact Or.inl h
  | cons st rest ih =>
    have h1 : e ∈ (run (step s st) rest).cache := h
    rcases ih (step s st) h1 with h2 | ⟨s1, hs1, t, ht, hk, hv⟩
    · rcases step_cache_mem s st e h2 with h3 | ⟨t, ht, hk, hv⟩
      · exact Or.inl h3
      · refine Or.inr ⟨step s st, ?_, t, ht, hk, hv⟩
        simp only [trajectory, List.mem_cons]
        exact Or.inr (mem_trajectory_self _ _)
    · refine Or.inr ⟨s1, ?_, t, ht, hk, hv⟩
      simp only [trajectory, List.mem_cons]
      exact Or.inr hs1

/-- C7. Starting from an empty cache, after any finite run of create, get,
update, delete and list calls, each under arbitrary faults of the store and the
cache, interleaved with arbitrary expiries, every cache entry under the key of
an id `i` is the JSON serialization of a row with id `i` that the table held in
one of the states the run passed through, the final one included: the cache is
never ahead of the store. -/
theorem cache_never_ahead (s0 : Sys) (steps : List Step) (hempty : s0.cache = [])
    (e : Entry) (he : e ∈ (run s0 steps).cache) (i : Int) (hkey : e.key = cacheKey i) :
    ∃ s1 ∈ trajectory s0 steps, ∃ t ∈ s1.rows, t.ID = i ∧ e.value = jsonMarshal t := by
  rcases run_cache_mem steps s0 e he with h | ⟨s1, hs1, t, ht, hk, hv⟩
  · rw [hempty] at h
    exact absurd h (List.not_mem_nil e)
  · refine ⟨s1, hs1, t, ht, ?_, hv⟩
    apply cacheKey_eq
    rw [← hk, hkey]

/-- Witness of C7: the sample task is read (and cached) and then updated while
the cache is down; the entry left in the cache is the serialization of the row
as the table held it in an earlier state of the run. -/
theorem cache_never_ahead_witness :
    ∃ s1 ∈ trajectory sampleSys [.get "1" noFaults,
        .update "1" (.object [("status", .string "completed")]) sampleLater cacheDown],
      ∃ t ∈ s1.rows, t.ID = 1 ∧
        (⟨cacheKey 1, jsonMarshal sampleTask, Hour⟩ : Entry).value = jsonMarshal t :=
  cache_never_ahead sampleSys [.get "1" noFaults,
      .update "1" (.object [("status", .string "completed")]) sampleLater cacheDown] rfl
    ⟨cacheKey 1, jsonMarshal sampleTask, Hour⟩ (List.mem_cons_self _ _) 1 rfl

/-- The operations of a call that issued none. -/
theorem split_none (pre post : List Effect) (e : Effect) (h : [] = pre ++ e :: post) : False := by
  cases pre <;> simp at h

/-- The one way to single out an operation of a call that issued one. -/
theorem split_one (a : Effect) (pre post : List Effect) (e : Effect)
    (h : [a] = pre ++ e :: post) : pre = [] ∧ e = a := by
  cases pre with
  | nil =>
    simp only [List.nil_append, List.cons.injEq] at h
    exact ⟨rfl, h.1.symm⟩
  | cons x rest =>
    cases rest <;> simp at h

/-- The two ways to single out an operation of a call that issued two. -/
theorem split_two (a b : Effect) (pre post : List Effect) (e : Effect)
    (h : [a, b] = pre ++ e :: post) : (pre = [] ∧ e = a) ∨ (pre = [a] ∧ e = b) := by
  cases pre with
  | nil =>
    simp only [List.nil_append, List.cons.injEq] at h
    exact Or.inl ⟨rfl, h.1.symm⟩
  | cons x rest =>
    simp only [List.cons_append, List.cons.injEq] at h
    obtain ⟨hx, hrest⟩ := h
    obtain ⟨hr, he⟩ := split_one b rest post e hrest
    exact Or.inr ⟨by rw [hr, hx], he⟩

/-- The operations of one `UpdateTask` call: none; or the update alone, seen to
fail or to match no row, with the cache untouched; or the update, seen to
succeed, followed by the cache set. -/
theorem updateTask_effects_shape (idParam : String) (body : Body) (now : Time) (fl : Faults)
    (s : Sys) :
    ((UpdateTask idParam body now fl s).effects = [] ∧
      (UpdateTask idParam body now fl s).sys.cache = s.cache) ∨
    (∃ m, (UpdateTask idParam body now fl s).effects = [m] ∧ m.isCacheMutation = false ∧
      m.isStoreMutationOK = false ∧ (UpdateTask idParam body now fl s).sys.cache = s.cache) ∨
    (∃ m c, (UpdateTask idParam body now fl s).effects = [m, c] ∧
      m.isStoreMutationOK = true ∧ m.isCacheMutation = false) := by
  unfold UpdateTask
  cases hid : ParseInt idParam with
  | none => exact Or.inl ⟨rfl, rfl⟩
  | some taskID =>
    simp only []
    cases hdec : decodeUpdateTaskRequest body with
    | none => exact Or.inl ⟨rfl, rfl⟩
    | some req =>
      simp only []
      by_cases hst : req.Status ≠ "" ∧ req.Status ≠ "pending" ∧ req.Status ≠ "in_progress"
          ∧ req.Status ≠ "completed"
      · rw [if_pos hst]
        exact Or.inl ⟨rfl, rfl⟩
      · rw [if_neg hst]
        cases hupd : updateTask fl s.rows (nullString req.Title) (nullString req.Description)
            (nullString req.Status) now taskID with
        | mk res rows1 =>
          cases res with
          | err d =>
            cases d with
            | ErrNoRows => exact Or.inr (Or.inl ⟨_, rfl, rfl, rfl, rfl⟩)
            | other msg => exact Or.inr (Or.inl ⟨_, rfl, rfl, rfl, rfl⟩)
          | ok task => exact Or.inr (Or.inr ⟨_, _, rfl, rfl, rfl⟩)

/-- The operations of one `DeleteTask` call: none; or the delete alone, with
the cache untouched, and then the delete was seen to fail, or its row count
could not be read, or it removed no row; or the delete, seen to remove a row,
followed by the cache delete. -/
theorem deleteTask_effects_shape (idParam : String) (fl : Faults) (s : Sys) :
    ((DeleteTask idParam fl s).effects = [] ∧ (DeleteTask idParam fl s).sys.cache = s.cache) ∨
    (∃ m, (DeleteTask idParam fl s).effects = [m] ∧ m.isCacheMutation = false ∧
      (DeleteTask idParam fl s).sys.cache = s.cache) ∨
    (∃ m c, (DeleteTask idParam fl s).effects = [m, c] ∧
      m.isStoreMutationOK = true ∧ m.isCacheMutation = false) := by
  unfold DeleteTask
  cases hid : ParseInt idParam with
  | none => exact Or.inl ⟨rfl, rfl⟩
  | some taskID =>
    simp only []
    cases hdel : deleteTask fl s.rows taskID with
    | mk res rows1 =>
      cases res with
      | err msg => exact Or.inr (Or.inl ⟨_, rfl, rfl, rfl⟩)
      | ok n =>
        simp only []
        cases hr : fl.rowsAffectedErr with
        | some msg => exact Or.inr (Or.inl ⟨_, rfl, rfl, rfl⟩)
        | none =>
          simp only []
          by_cases hz : n = 0
          · rw [if_pos hz]
            exact Or.inr (Or.inl ⟨_, rfl, rfl, rfl⟩)
          · rw [if_neg hz]
            refine Or.inr (Or.inr ⟨_, _, rfl, ?_, rfl⟩)
            simp only [Effect.isStoreMutationOK, decide_eq_true_eq]
            omega

/-- Ordering of the operations of a call of one of the three shapes above. -/
theorem ordered_of_shape (effects : List Effect)
    (hshape : effects = [] ∨ (∃ m, effects = [m] ∧ m.isCacheMutation = false) ∨
      (∃ m c, effects = [m, c] ∧ m.isStoreMutationOK = true ∧ m.isCacheMutation = false))
    (pre post : List Effect) (e : Effect) (hsplit : effects = pre ++ e :: post)
    (he : e.isCacheMutation = true) : ∃ m ∈ pre, m.isStoreMutationOK = true := by
  rcases hshape with h | ⟨m, h, hm⟩ | ⟨m, c, h, hok, hm⟩
  · rw [h] at hsplit
    exact absurd hsplit (fun h1 => split_none pre post e h1)
  · rw [h] at hsplit
    obtain ⟨_, he1⟩ := split_one m pre post e hsplit
    rw [he1, hm] at he
    exact absurd he (by decide)
  · rw [h] at hsplit
    rcases split_two m c pre post e hsplit with ⟨_, he1⟩ | ⟨hpre, _⟩
    · rw [he1, hm] at he
      exact absurd he (by decide)
    · exact ⟨m, by rw [hpre]; exact List.mem_singleton.mpr rfl, hok⟩

/-- C8. Within one `UpdateTask` call and within one `DeleteTask` call, every
cache mutation (set or delete) in the sequence of operations is preceded, in
the same call, by a store mutation that succeeded; and a call none of whose
store operations succeeded as a mutation (it failed, or matched no row) issues
no cache mutation and leaves the cache as it was. -/
theorem cache_mutation_after_store_mutation (idParam : String) (body : Body) (now : Time)
    (fl : Faults) (s : Sys) :
    (∀ pre post e, (UpdateTask idParam body now fl s).effects = pre ++ e :: post →
      e.isCacheMutation = true → ∃ m ∈ pre, m.isStoreMutationOK = true) ∧
    (∀ pre post e, (DeleteTask idParam fl s).effects = pre ++ e :: post →
      e.isCacheMutation = true → ∃ m ∈ pre, m.isStoreMutationOK = true) ∧
    ((∀ m ∈ (UpdateTask idParam body now fl s).effects, m.isStoreMutationOK = false) →
      (∀ e ∈ (UpdateTask idParam body now fl s).effects, e.isCacheMutation = false) ∧
      (UpdateTask idParam body now fl s).sys.cache = s.cache) ∧
    ((∀ m ∈ (DeleteTask idParam fl s).effects, m.isStoreMutationOK = false) →
      (∀ e ∈ (DeleteTask idParam fl s).effects, e.isCacheMutation = false) ∧
      (DeleteTask idParam fl s).sys.cache = s.cache) := by
  refine ⟨?_, ?_, ?_, ?_⟩
  · intro pre post e hsplit he
    refine ordered_of_shape _ ?_ pre post e hsplit he
    rcases updateTask_effects_shape idParam body now fl s with h | ⟨m, h, hm, _, _⟩ | h
    · exact Or.inl h.1
    · exact Or.inr (Or.inl ⟨m, h, hm⟩)
    · exact Or.inr (Or.inr h)
  · intro pre post e hsplit he
    refine ordered_of_shape _ ?_ pre post e hsplit he
    rcases deleteTask_effects_shape idParam fl s with h | ⟨m, h, hm, _⟩ | h
    · exact Or.inl h.1
    · exact Or.inr (Or.inl ⟨m, h, hm⟩)
    · exact Or.inr (Or.inr h)
  · intro hno
    rcases updateTask_effects_shape idParam body now fl s with h | ⟨m, h, hm, _, hc⟩ | ⟨m, c, h, hok, _⟩
    · rw [h.1]
      exact ⟨fun e he => absurd he (List.not_mem_nil e), h.2⟩
    · rw [h]
      refine ⟨fun e he => ?_, hc⟩
      rw [List.mem_singleton.mp he]
      exact hm
    · have := hno m (by rw [h]; exact List.mem_cons_self _ _)
      rw [hok] at this
      exact absurd this (by decide)
  · intro hno
    rcases deleteTask_effects_shape idParam fl s with h | ⟨m, h, hm, hc⟩ | ⟨m, c, h, hok, _⟩
    · rw [h.1]
      exact ⟨fun e he => absurd he (List.not_mem_nil e), h.2⟩
    · rw [h]
      refine ⟨fun e he => ?_, hc⟩
      rw [List.mem_singleton.mp he]
      exact hm
    · have := hno m (by rw [h]; exact List.mem_cons_self _ _)
      rw [hok] at this
      exact absurd this (by decide)

/-- Witness of C8: in the update of the sample task the cache set comes after
the update the store confirmed. -/
theorem cache_mutation_after_store_mutation_witness :
    ∃ m ∈ [Effect.dbUpdate none none (some "completed") sampleLater 1
        (.ok ⟨1, "a", "", "completed", sampleTime, sampleLater⟩)],
      m.isStoreMutationOK = true :=
  (cache_mutation_after_store_mutation "1" (.object [("status", .string "completed")])
    sampleLater noFaults sampleSys).1
    [.dbUpdate none none (some "completed") sampleLater 1
      (.ok ⟨1, "a", "", "completed", sampleTime, sampleLater⟩)] []
    (.cacheSet (cacheKey 1) (jsonMarshal ⟨1, "a", "", "completed", sampleTime, sampleLater⟩) Hour)
    rfl rfl

/-- The response of `GetTask` depends on the faults only through those of the
cache lookup and of the select. -/
theorem getTask_resp_congr (idParam : String) (fl fl0 : Faults) (s : Sys)
    (hget : fl.getErr = fl0.getErr) (hquery : fl.queryErr = fl0.queryErr)
    (hscan : fl.scanErr = fl0.scanErr) :
    (GetTask idParam fl s).resp = (GetTask idParam fl0 s).resp := by
  unfold GetTask
  cases hid : ParseInt idParam with
  | none => rfl
  | some taskID =>
    have h1 : redisGet fl s.cache (cacheKey taskID) = redisGet fl0 s.cache (cacheKey taskID) := by
      simp [redisGet, hget]
    have h2 : selectTask fl s.rows taskID = selectTask fl0 s.rows taskID := by
      simp [selectTask, hquery, hscan]
    simp only [h1, h2]
    cases redisGet fl0 s.cache (cacheKey taskID) with
    | ok v => rfl
    | err e =>
      cases selectTask fl0 s.rows taskID with
      | err d => cases d <;> rfl
      | ok t => rfl

/-- The response of `UpdateTask` depends on the faults only through those of
the update statement. -/
theorem updateTask_resp_congr (idParam : String) (body : Body) (now : Time) (fl fl0 : Faults)
    (s : Sys) (hquery : fl.queryErr = fl0.queryErr) (hscan : fl.scanErr = fl0.scanErr) :
    (UpdateTask idParam body now fl s).resp = (UpdateTask idParam body now fl0 s).resp := by
  unfold UpdateTask
  cases hid : ParseInt idParam with
  | none => rfl
  | some taskID =>
    simp only []
    cases hdec : decodeUpdateTaskRequest body with
    | none => rfl
    | some req =>
      simp only []
      by_cases hst : req.Status ≠ "" ∧ req.Status ≠ "pending" ∧ req.Status ≠ "in_progress"
          ∧ req.Status ≠ "completed"
      · rw [if_pos hst, if_pos hst]
      · rw [if_neg hst, if_neg hst]
        have h2 : updateTask fl s.rows (nullString req.Title) (nullString req.Description)
            (nullString req.Status) now taskID =
            updateTask fl0 s.rows (nullString req.Title) (nullString req.Description)
            (nullString req.Status) now taskID := by
          simp [updateTask, hquery, hscan]
        rw [h2]
        cases updateTask fl0 s.rows (nullString req.Title) (nullString req.Description)
            (nullString req.Status) now taskID with
        | mk res rows1 =>
          cases res with
          | err d => cases d <;> rfl
          | ok t => rfl

/-- The response of `DeleteTask` depends on the faults only through those of
the delete statement and of reading its row count. -/
theorem deleteTask_resp_congr (idParam : String) (fl fl0 : Faults) (s : Sys)
    (hquery : fl.queryErr = fl0.queryErr) (hrows : fl.rowsAffectedErr = fl0.rowsAffectedErr) :
    (DeleteTask idParam fl s).resp = (DeleteTask idParam fl0 s).resp := by
  unfold DeleteTask
  cases hid : ParseInt idParam with
  | none => rfl
  | some taskID =>
    have h2 : deleteTask fl s.rows taskID = deleteTask fl0 s.rows taskID := by
      simp [deleteTask, hquery]
    simp only [h2, hrows]
    cases deleteTask fl0 s.rows taskID with
    | mk res rows1 =>
      cases res with
      | err msg => rfl
      | ok n =>
        simp only []
        cases fl0.rowsAffectedErr with
        | some msg => rfl
        | none =>
          simp only []
          by_cases hz : n = 0
          · rw [if_pos hz, if_pos hz]
          · rw [if_neg hz, if_neg hz]

/-- C9. The response (status, header and body) of `GetTask`, of `UpdateTask`
and of `DeleteTask` is the same whether the cache write of the call (set or
delete) succeeds or fails with any error; and on a store hit, a matched row, a
deleted row that response is the success response: 200 with the record read,
200 with the post-update record, 204. -/
theorem cache_write_failure_swallowed (idParam : String) (body : Body) (now : Time)
    (fl : Faults) (s : Sys) (x y : Option String) :
    (GetTask idParam { fl with setErr := x } s).resp
      = (GetTask idParam { fl with setErr := y } s).resp ∧
    (UpdateTask idParam body now { fl with setErr := x } s).resp
      = (UpdateTask idParam body now { fl with setErr := y } s).resp ∧
    (DeleteTask idParam { fl with delErr := x } s).resp
      = (DeleteTask idParam { fl with delErr := y } s).resp ∧
    (∀ taskID e task, ParseInt idParam = some taskID →
      redisGet fl s.cache (cacheKey taskID) = .err e → selectTask fl s.rows taskID = .ok task →
      (GetTask idParam { fl with setErr := x } s).resp = jsonResponse 200 (jsonEncode task)) ∧
    (∀ taskID req task rows1, ParseInt idParam = some taskID →
      decodeUpdateTaskRequest body = some req →
      (req.Status = "" ∨ req.Status = "pending" ∨ req.Status = "in_progress"
        ∨ req.Status = "completed") →
      updateTask fl s.rows (nullString req.Title) (nullString req.Description)
        (nullString req.Status) now taskID = (.ok task, rows1) →
      (UpdateTask idParam body now { fl with setErr := x } s).resp
        = jsonResponse 200 (jsonEncode task)) ∧
    (∀ taskID n rows1, ParseInt idParam = some taskID →
      deleteTask fl s.rows taskID = (.ok n, rows1) → fl.rowsAffectedErr = none → 0 < n →
      (DeleteTask idParam { fl with delErr := x } s).resp = ⟨204, [], ""⟩) := by
  refine ⟨getTask_resp_congr _ _ _ _ rfl rfl rfl, updateTask_resp_congr _ _ _ _ _ _ rfl rfl,
    deleteTask_resp_congr _ _ _ _ rfl rfl, ?_, ?_, ?_⟩
  · intro taskID e task hid hmiss hsel
    rw [getTask_resp_congr idParam { fl with setErr := x } fl s rfl rfl rfl]
    simp only [GetTask, hid, hmiss, hsel]
  · intro taskID req task rows1 hid hdec hval hupd
    have hnot : ¬ (req.Status ≠ "" ∧ req.Status ≠ "pending" ∧ req.Status ≠ "in_progress"
        ∧ req.Status ≠ "completed") := by
      rcases hval with h | h | h | h <;> simp [h]
    rw [updateTask_resp_congr idParam body now { fl with setErr := x } fl s rfl rfl]
    simp only [UpdateTask, hid, hdec, if_neg hnot, hupd]
  · intro taskID n rows1 hid hdel hr hn
    have hz : ¬ n = 0 := by omega
    rw [deleteTask_resp_congr idParam { fl with delErr := x } fl s rfl rfl]
    simp only [DeleteTask, hid, hdel, hr, if_neg hz]

/-- Witness of C9: with the cache write failing, the sample task is still
answered 200 on a read, 200 on an update and 204 on a delete. -/
theorem cache_write_failure_swallowed_witness :
    (GetTask "1" { noFaults with setErr := some "i/o timeout" } sampleSys).resp
      = jsonResponse 200 (jsonEncode sampleTask) ∧
    (UpdateTask "1" (.object [("status", .string "completed")]) sampleLater
      { noFaults with setErr := some "i/o timeout" } sampleSys).resp
      = jsonResponse 200 (jsonEncode ⟨1, "a", "", "completed", sampleTime, sampleLater⟩) ∧
    (DeleteTask "1" { noFaults with delErr := some "i/o timeout" } sampleSys).resp
      = ⟨204, [], ""⟩ :=
  ⟨(cache_write_failure_swallowed "1" .null sampleLater noFaults sampleSys (some "i/o timeout")
      none).2.2.2.1 1 .Nil sampleTask (by decide) (by decide) (by decide),
    (cache_write_failure_swallowed "1" (.object [("status", .string "completed")]) sampleLater
      noFaults sampleSys (some "i/o timeout") none).2.2.2.2.1 1 ⟨"", "", "completed"⟩
      ⟨1, "a", "", "completed", sampleTime, sampleLater⟩
      [⟨1, "a", "", "completed", sampleTime, sampleLater⟩]
      (by decide) (by decide) (by decide) (by decide),
    (cache_write_failure_swallowed "1" .null sampleLater noFaults sampleSys (some "i/o timeout")
      none).2.2.2.2.2 1 1 [] (by decide) (by decide) (by decide) (by decide)⟩

/-- C10. Validation comes before any I/O: a `CreateTask` request whose body
does not decode or whose title is empty, a `GetTask`, `UpdateTask` or
`DeleteTask` request whose id does not parse as an integer, and an `UpdateTask`
request whose body does not decode or whose status is non-empty and outside
`pending`, `in_progress`, `completed` are answered 400, issue no operation on
the store or the cache, and leave both as they were. -/
theorem validation_before_io (idParam : String) (body : Body) (now : Time) (fl : Faults)
    (s : Sys) :
    (decodeCreateTaskRequest body = none →
      (CreateTask body now fl s).resp.status = 400 ∧ (CreateTask body now fl s).effects = [] ∧
      (CreateTask body now fl s).sys = s) ∧
    (∀ req, decodeCreateTaskRequest body = some req → req.Title = "" →
      (CreateTask body now fl s).resp.status = 400 ∧ (CreateTask body now fl s).effects = [] ∧
      (CreateTask body now fl s).sys = s) ∧
    (ParseInt idParam = none →
      ((GetTask idParam fl s).resp.status = 400 ∧ (GetTask idParam fl s).effects = [] ∧
        (GetTask idParam fl s).sys = s) ∧
      ((UpdateTask idParam body now fl s).resp.status = 400 ∧
        (UpdateTask idParam body now fl s).effects = [] ∧
        (UpdateTask idParam body now fl s).sys = s) ∧
      ((DeleteTask idParam fl s).resp.status = 400 ∧ (DeleteTask idParam fl s).effects = [] ∧
        (DeleteTask idParam fl s).sys = s)) ∧
    (decodeUpdateTaskRequest body = none →
      (UpdateTask idParam body now fl s).resp.status = 400 ∧
      (UpdateTask idParam body now fl s).effects = [] ∧
      (UpdateTask idParam body now fl s).sys = s) ∧
    (∀ req, decodeUpdateTaskRequest body = some req → req.Status ≠ "" →
      req.Status ≠ "pending" → req.Status ≠ "in_progress" → req.Status ≠ "completed" →
      (UpdateTask idParam body now fl s).resp.status = 400 ∧
      (UpdateTask idParam body now fl s).effects = [] ∧
      (UpdateTask idParam body now fl s).sys = s) := by
  refine ⟨?_, ?_, ?_, ?_, ?_⟩
  · intro hdec
    simp [CreateTask, hdec, httpError]
  · intro req hdec htitle
    simp [CreateTask, hdec, htitle, httpError]
  · intro hid
    simp [GetTask, UpdateTask, DeleteTask, hid, httpError]
  · intro hdec
    cases hid : ParseInt idParam with
    | none => simp [UpdateTask, hid, httpError]
    | some taskID => simp [UpdateTask, hid, hdec, httpError]
  · intro req hdec h1 h2 h3 h4
    cases hid : ParseInt idParam with
    | none => simp [UpdateTask, hid, httpError]
    | some taskID => simp [UpdateTask, hid, hdec, h1, h2, h3, h4, httpError]

/-- Witness of C10: bad syntax and an empty title on create, the id `invalid`
on read, update and delete, and bad syntax and the status `done` on update are
all answered 400 without any operation. -/
theorem validation_before_io_witness :
    ((CreateTask .invalid sampleTime noFaults sampleSys).resp.status = 400 ∧
      (CreateTask .invalid sampleTime noFaults sampleSys).effects = [] ∧
      (CreateTask .invalid sampleTime noFaults sampleSys).sys = sampleSys) ∧
    ((CreateTask (.object [("title", .string "")]) sampleTime noFaults sampleSys).resp.status
        = 400 ∧
      (CreateTask (.object [("title", .string "")]) sampleTime noFaults sampleSys).effects = [] ∧
      (CreateTask (.object [("title", .string "")]) sampleTime noFaults sampleSys).sys
        = sampleSys) ∧
    ((GetTask "invalid" noFaults sampleSys).resp.status = 400 ∧
      (GetTask "invalid" noFaults sampleSys).effects = [] ∧
      (GetTask "invalid" noFaults sampleSys).sys = sampleSys) ∧
    ((UpdateTask "1" .invalid sampleTime noFaults sampleSys).resp.status = 400 ∧
      (UpdateTask "1" .invalid sampleTime noFaults sampleSys).effects = [] ∧
      (UpdateTask "1" .invalid sampleTime noFaults sampleSys).sys = sampleSys) ∧
    ((UpdateTask "1" (.object [("status", .string "done")]) sampleTime noFaults
        sampleSys).resp.status = 400 ∧
      (UpdateTask "1" (.object [("status", .string "done")]) sampleTime noFaults
        sampleSys).effects = [] ∧
      (UpdateTask "1" (.object [("status", .string "done")]) sampleTime noFaults
        sampleSys).sys = sampleSys) :=
  ⟨(validation_before_io "1" .invalid sampleTime noFaults sampleSys).1 (by decide),
    (validation_before_io "1" (.object [("title", .string "")]) sampleTime noFaults
      sampleSys).2.1 ⟨"", ""⟩ (by decide) (by decide),
    ((validation_before_io "invalid" .null sampleTime noFaults sampleSys).2.2.1 (by decide)).1,
    (validation_before_io "1" .invalid sampleTime noFaults sampleSys).2.2.2.1 (by decide),
    (validation_before_io "1" (.object [("status", .string "done")]) sampleTime noFaults
      sampleSys).2.2.2.2 ⟨"", "", "done"⟩ (by decide) (by decide) (by decide) (by decide)
      (by decide)⟩

/-- A key selects at most one field name. -/
theorem keyMatches_unique (k a b : String) (ha : keyMatches k a = true)
    (hb : keyMatches k b = true) : a.data = b.data := by
  simp only [keyMatches, beq_iff_eq] at ha hb
  rw [← ha, ← hb]

/-- A key that selects `title` selects neither `description` nor `status`. -/
theorem keyMatches_title (k : String) (h : keyMatches k "title" = true) :
    keyMatches k "description" = false ∧ keyMatches k "status" = false := by
  constructor
  · cases hd : keyMatches k "description" with
    | false => rfl
    | true => exact absurd (keyMatches_unique k _ _ h hd) (by decide)
  · cases hd : keyMatches k "status" with
    | false => rfl
    | true => exact absurd (keyMatches_unique k _ _ h hd) (by decide)

/-- A key that selects `description` does not select `status`. -/
theorem keyMatches_description (k : String) (h : keyMatches k "description" = true) :
    keyMatches k "status" = false := by
  cases hd : keyMatches k "status" with
  | false => rfl
  | true => exact absurd (keyMatches_unique k _ _ h hd) (by decide)

/-- A decoded update request carries, field by field, the last string the body
gives under the field's key, and what the field held before when there is none. -/
theorem decodeUpdateMembers_fields (ms : List (String × JsonValue)) (r0 r : UpdateTaskRequest)
    (h : decodeUpdateMembers ms r0 = some r) :
    r.Title = memberString ms "title" r0.Title ∧
    r.Description = memberString ms "description" r0.Description ∧
    r.Status = memberString ms "status" r0.Status := by
  induction ms generalizing r0 with
  | nil =>
    simp only [decodeUpdateMembers, Option.some.injEq] at h
    rw [← h]
    exact ⟨rfl, rfl, rfl⟩
  | cons m rest ih =>
    obtain ⟨k, v⟩ := m
    unfold decodeUpdateMembers at h
    by_cases ht : keyMatches k "title" = true
    · obtain ⟨hd, hs⟩ := keyMatches_title k ht
      rw [if_pos ht] at h
      cases v with
      | null =>
        simp only [setString] at h
        have := ih _ h
        simpa [memberString, ht, hd, hs] using this
      | string x =>
        simp only [setString] at h
        have := ih _ h
        simpa [memberString, ht, hd, hs] using this
      | other => simp [setString] at h
    · rw [if_neg ht] at h
      by_cases hd : keyMatches k "description" = true
      · have hs := keyMatches_description k hd
        rw [if_pos hd] at h
        cases v with
        | null =>
          simp only [setString] at h
          have := ih _ h
          simpa [memberString, ht, hd, hs] using this
        | string x =>
          simp only [setString] at h
          have := ih _ h
          simpa [memberString, ht, hd, hs] using this
        | other => simp [setString] at h
      · rw [if_neg hd] at h
        by_cases hs : keyMatches k "status" = true
        · rw [if_pos hs] at h
          cases v with
          | null =>
            simp only [setString] at h
            have := ih _ h
            simpa [memberString, ht, hd, hs] using this
          | string x =>
            simp only [setString] at h
            have := ih _ h
            simpa [memberString, ht, hd, hs] using this
          | other => simp [setString] at h
        · rw [if_neg hs] at h
          have := ih _ h
          simpa [memberString, ht, hd, hs] using this

/-- A body without a member under a key gives no string for it. -/
theorem memberString_absent (ms : List (String × JsonValue)) (name cur : String)
    (h : ∀ m ∈ ms, keyMatches m.1 name = false) : memberString ms name cur = cur := by
  induction ms generalizing cur with
  | nil => rfl
  | cons m rest ih =>
    obtain ⟨k, v⟩ := m
    have hk : keyMatches k name = false := h (k, v) (List.mem_cons_self _ _)
    have hrest : ∀ m ∈ rest, keyMatches m.1 name = false :=
      fun m hm => h m (List.mem_cons_of_mem _ hm)
    simp only [memberString, hk, Bool.false_eq_true, if_false]
    exact ih cur hrest

/-- Finding a row by id after a map that keeps ids is mapping the row found. -/
theorem find_id_map (rows : List Task) (f : Task → Task) (hf : ∀ r, (f r).ID = r.ID) (i : Int) :
    (rows.map f).find? (fun r => r.ID == i) = (rows.find? (fun r => r.ID == i)).map f := by
  induction rows with
  | nil => rfl
  | cons r rest ih =>
    simp only [List.map_cons, List.find?_cons, hf r]
    cases hri : (r.ID == i) with
    | true => rfl
    | false => exact ih

/-- The update's `SET` clause keeps the id of every row. -/
theorem coalesce_keeps_id (a b c : Option String) (now : Time) (id : Int) (r : Task) :
    (if r.ID = id then coalesceRow a b c now r else r).ID = r.ID := by
  split <;> rfl

/-- What the update statement returns for a row the table holds, when the
statement and the reading of its row raise no error. -/
theorem updateTask_existing (fl : Faults) (rows : List Task) (a b c : Option String) (now : Time)
    (id : Int) (old : Task) (hq : fl.queryErr = none) (hs : fl.scanErr = none)
    (hold : rows.find? (fun r => r.ID == id) = some old) :
    updateTask fl rows a b c now id =
      (.ok (coalesceRow a b c now old),
        rows.map (fun r => if r.ID = id then coalesceRow a b c now r else r)) := by
  have hid : old.ID = id := (find_id_some rows id old hold).2
  have hfind : (rows.map (fun r => if r.ID = id then coalesceRow a b c now r else r)).find?
      (fun r => r.ID == id) = some (coalesceRow a b c now old) := by
    rw [find_id_map rows _ (coalesce_keeps_id a b c now id) id, hold]
    simp [hid]
  simp only [updateTask, hq, hfind, hs]

/-- The merge of one column: the request's string when it is non-empty, the
column's prior value otherwise. -/
theorem nullString_getD (x prior : String) :
    (nullString x).getD prior = if x = "" then prior else x := by
  unfold nullString
  split <;> rfl

/-- C11, as the code has it. For every task the table holds and every valid
`UpdateTask` request that the store serves, each of title, description and
status in the post-update record equals the request's value when that value is
a non-empty string, and the task's prior value when the request's value is the
empty string, which is also what a body that omits the key (or gives it as
`null`) decodes to; id and created_at are unchanged and updated_at is the
call's current time. -/
theorem updateTask_merge (idParam : String) (taskID : Int) (body : Body)
    (req : UpdateTaskRequest) (now : Time) (fl : Faults) (s : Sys) (old : Task)
    (hid : ParseInt idParam = some taskID)
    (hdec : decodeUpdateTaskRequest body = some req)
    (hval : req.Status = "" ∨ req.Status = "pending" ∨ req.Status = "in_progress"
      ∨ req.Status = "completed")
    (hq : fl.queryErr = none) (hs : fl.scanErr = none)
    (hold : s.rows.find? (fun r => r.ID == taskID) = some old) :
    ∃ task : Task,
      (UpdateTask idParam body now fl s).resp = jsonResponse 200 (jsonEncode task) ∧
      (UpdateTask idParam body now fl s).sys.rows.find? (fun r => r.ID == taskID) = some task ∧
      task.Title = (if req.Title = "" then old.Title else req.Title) ∧
      task.Description = (if req.Description = "" then old.Description else req.Description) ∧
      task.Status = (if req.Status = "" then old.Status else req.Status) ∧
      task.ID = old.ID ∧ task.CreatedAt = old.CreatedAt ∧ task.UpdatedAt = now ∧
      (∀ ms, body = .object ms →
        req.Title = memberString ms "title" "" ∧
        req.Description = memberString ms "description" "" ∧
        req.Status = memberString ms "status" "" ∧
        ((∀ m ∈ ms, keyMatches m.1 "title" = false) → task.Title = old.Title) ∧
        ((∀ m ∈ ms, keyMatches m.1 "description" = false) →
          task.Description = old.Description) ∧
        ((∀ m ∈ ms, keyMatches m.1 "status" = false) → task.Status = old.Status)) := by
  have hnot : ¬ (req.Status ≠ "" ∧ req.Status ≠ "pending" ∧ req.Status ≠ "in_progress"
      ∧ req.Status ≠ "completed") := by
    rcases hval with h | h | h | h <;> simp [h]
  have hupd := updateTask_existing fl s.rows (nullString req.Title) (nullString req.Description)
    (nullString req.Status) now taskID old hq hs hold
  have hfind := updateTask_ok_find fl s.rows _ _ _ _ now taskID _ hupd
  refine ⟨coalesceRow (nullString req.Title) (nullString req.Description)
    (nullString req.Status) now old, ?_, ?_, ?_, ?_, ?_, rfl, rfl, rfl, ?_⟩
  · simp only [UpdateTask, hid, hdec, if_neg hnot, hupd]
  · simp only [UpdateTask, hid, hdec, if_neg hnot, hupd]
    exact hfind
  · exact nullString_getD req.Title old.Title
  · exact nullString_getD req.Description old.Description
  · exact nullString_getD req.Status old.Status
  · intro ms hbody
    rw [hbody] at hdec
    obtain ⟨h1, h2, h3⟩ := decodeUpdateMembers_fields ms ⟨"", "", ""⟩ req hdec
    refine ⟨h1, h2, h3, ?_, ?_, ?_⟩
    · intro habs
      have hreq : req.Title = "" := by rw [h1, memberString_absent ms "title" "" habs]
      show (nullString req.Title).getD old.Title = old.Title
      rw [nullString_getD, if_pos hreq]
    · intro habs
      have hreq : req.Description = "" := by
        rw [h2, memberString_absent ms "description" "" habs]
      show (nullString req.Description).getD old.Description = old.Description
      rw [nullString_getD, if_pos hreq]
    · intro habs
      have hreq : req.Status = "" := by rw [h3, memberString_absent ms "status" "" habs]
      show (nullString req.Status).getD old.Status = old.Status
      rw [nullString_getD, if_pos hreq]

/-- Witness of the amended C11: the described task gets a new title and the
status `completed`; its description, which the body omits, stays. -/
theorem updateTask_merge_witness :
    ∃ task : Task,
      (UpdateTask "1" (.object [("title", .string "b"), ("status", .string "completed")])
        sampleLater noFaults describedSys).resp = jsonResponse 200 (jsonEncode task) ∧
      (UpdateTask "1" (.object [("title", .string "b"), ("status", .string "completed")])
        sampleLater noFaults describedSys).sys.rows.find? (fun r => r.ID == 1) = some task ∧
      task.Title = (if (⟨"b", "", "completed"⟩ : UpdateTaskRequest).Title = ""
        then describedTask.Title else (⟨"b", "", "completed"⟩ : UpdateTaskRequest).Title) ∧
      task.Description = (if (⟨"b", "", "completed"⟩ : UpdateTaskRequest).Description = ""
        then describedTask.Description
        else (⟨"b", "", "completed"⟩ : UpdateTaskRequest).Description) ∧
      task.Status = (if (⟨"b", "", "completed"⟩ : UpdateTaskRequest).Status = ""
        then describedTask.Status else (⟨"b", "", "completed"⟩ : UpdateTaskRequest).Status) ∧
      task.ID = describedTask.ID ∧ task.CreatedAt = describedTask.CreatedAt ∧
      task.UpdatedAt = sampleLater ∧
      (∀ ms, Body.object [("title", .string "b"), ("status", .string "completed")]
          = .object ms →
        (⟨"b", "", "completed"⟩ : UpdateTaskRequest).Title = memberString ms "title" "" ∧
        (⟨"b", "", "completed"⟩ : UpdateTaskRequest).Description
          = memberString ms "description" "" ∧
        (⟨"b", "", "completed"⟩ : UpdateTaskRequest).Status = memberString ms "status" "" ∧
        ((∀ m ∈ ms, keyMatches m.1 "title" = false) → task.Title = describedTask.Title) ∧
        ((∀ m ∈ ms, keyMatches m.1 "description" = false) →
          task.Description = describedTask.Description) ∧
        ((∀ m ∈ ms, keyMatches m.1 "status" = false) → task.Status = describedTask.Status)) :=
  updateTask_merge "1" 1 (.object [("title", .string "b"), ("status", .string "completed")])
    ⟨"b", "", "completed"⟩ sampleLater noFaults describedSys describedTask
    (by decide) (by decide) (by decide) (by decide) (by decide) (by decide)

/-- Counterexample to C11 as stated: the body `{"description": ""}` contains
the key `description` with the value `""`, the update succeeds, and the
description of the post-update record is the prior `"d"`, not the request's
value. -/
theorem update_empty_value_keeps_prior :
    memberString [("description", .string "")] "description" "x" = "" ∧
    (∃ m ∈ [("description", JsonValue.string "")], keyMatches m.1 "description" = true) ∧
    (UpdateTask "1" (.object [("description", .string "")]) sampleLater noFaults
      describedSys).resp
      = jsonResponse 200 (jsonEncode ⟨1, "a", "d", "pending", sampleTime, sampleLater⟩) ∧
    (UpdateTask "1" (.object [("description", .string "")]) sampleLater noFaults
      describedSys).sys.rows = [⟨1, "a", "d", "pending", sampleTime, sampleLater⟩] ∧
    (⟨1, "a", "d", "pending", sampleTime, sampleLater⟩ : Task).Description ≠ "" := by
  refine ⟨by decide, ⟨_, List.mem_singleton.mpr rfl, by decide⟩, by decide, by decide, by decide⟩

/-- C12. For every id that parses, `DeleteTask` issues exactly one store
operation, the delete by that id, and decides by the count of rows it removed:
with zero rows the answer is 404 and no cache operation is issued; with a row
removed the answer is 204 and exactly one cache delete is issued, on the key
`task:<decimal id>`. -/
theorem deleteTask_by_row_count (idParam : String) (taskID : Int) (fl : Faults) (s : Sys)
    (hid : ParseInt idParam = some taskID) :
    (∃ res, (DeleteTask idParam fl s).effects.filter Effect.isStoreOp
      = [.dbDelete taskID res]) ∧
    (∀ rows1, deleteTask fl s.rows taskID = (.ok 0, rows1) → fl.rowsAffectedErr = none →
      (DeleteTask idParam fl s).resp = httpError "Task not found" 404 ∧
      (DeleteTask idParam fl s).resp.status = 404 ∧
      (DeleteTask idParam fl s).effects = [.dbDelete taskID (.ok 0)] ∧
      (DeleteTask idParam fl s).sys.cache = s.cache) ∧
    (∀ n rows1, deleteTask fl s.rows taskID = (.ok n, rows1) → fl.rowsAffectedErr = none →
      0 < n →
      (DeleteTask idParam fl s).resp = ⟨204, [], ""⟩ ∧
      (DeleteTask idParam fl s).effects
        = [.dbDelete taskID (.ok n), .cacheDel ("task:" ++ formatInt taskID)]) := by
  refine ⟨?_, ?_, ?_⟩
  · unfold DeleteTask
    simp only [hid]
    cases hdel : deleteTask fl s.rows taskID with
    | mk res rows1 =>
      cases res with
      | err msg => exact ⟨_, rfl⟩
      | ok n =>
        simp only []
        cases hr : fl.rowsAffectedErr with
        | some msg => exact ⟨_, rfl⟩
        | none =>
          simp only []
          by_cases hz : n = 0
          · rw [if_pos hz]
            exact ⟨_, rfl⟩
          · rw [if_neg hz]
            exact ⟨_, rfl⟩
  · intro rows1 hdel hr
    have hD : DeleteTask idParam fl s = ⟨httpError "Task not found" 404,
        [.dbDelete taskID (.ok 0)], { s with rows := rows1 }⟩ := by
      simp only [DeleteTask, hid, hdel, hr, if_true]
    rw [hD]
    exact ⟨rfl, rfl, rfl, rfl⟩
  · intro n rows1 hdel hr hn
    have hz : ¬ n = 0 := by omega
    have hD : DeleteTask idParam fl s = ⟨⟨204, [], ""⟩,
        [.dbDelete taskID (.ok n), .cacheDel (cacheKey taskID)],
        { s with rows := rows1, cache := redisDel fl s.cache (cacheKey taskID) }⟩ := by
      simp only [DeleteTask, hid, hdel, hr, if_neg hz]
    rw [hD]
    exact ⟨rfl, rfl⟩

/-- Witness of C12: deleting the sample task removes one row and issues the
cache delete on `task:1`; deleting id 7, which the table does not hold,
removes none and is answered 404. -/
theorem deleteTask_by_row_count_witness :
    ((DeleteTask "1" noFaults sampleSys).resp = ⟨204, [], ""⟩ ∧
      (DeleteTask "1" noFaults sampleSys).effects
        = [.dbDelete 1 (.ok 1), .cacheDel ("task:" ++ formatInt 1)]) ∧
    ((DeleteTask "7" noFaults sampleSys).resp = httpError "Task not found" 404 ∧
      (DeleteTask "7" noFaults sampleSys).resp.status = 404 ∧
      (DeleteTask "7" noFaults sampleSys).effects = [.dbDelete 7 (.ok 0)] ∧
      (DeleteTask "7" noFaults sampleSys).sys.cache = sampleSys.cache) :=
  ⟨(deleteTask_by_row_count "1" 1 noFaults sampleSys (by decide)).2.2 1 [] (by decide)
      (by decide) (by decide),
    (deleteTask_by_row_count "7" 7 noFaults sampleSys (by decide)).2.1 [sampleTask] (by decide)
      (by decide)⟩

/-- C13. For every `CreateTask` request with a non-empty title the call issues
exactly one operation, the store insert carrying the request's title and
description, the status `pending` and one timestamp (the statement uses it for
both created_at and updated_at), and no cache operation; when the insert
returns an id the answer is 201 with the body `{"id":<that id>}` and the table
holds the new row with both timestamps equal. -/
theorem createTask_insert (body : Body) (req : CreateTaskRequest) (now : Time) (fl : Faults)
    (s : Sys) (hdec : decodeCreateTaskRequest body = some req) (htitle : req.Title ≠ "") :
    (CreateTask body now fl s).effects =
      [.dbInsert req.Title req.Description "pending" now
        (insertTask fl s req.Title req.Description "pending" now).1] ∧
    (CreateTask body now fl s).sys.cache = s.cache ∧
    (∀ taskID, (insertTask fl s req.Title req.Description "pending" now).1 = .ok taskID →
      (CreateTask body now fl s).resp = jsonResponse 201 (jsonEncodeID taskID) ∧
      (CreateTask body now fl s).resp.status = 201 ∧
      (CreateTask body now fl s).resp.body = "\x7b\"id\":" ++ formatInt taskID ++ "\x7d\n" ∧
      (⟨taskID, req.Title, req.Description, "pending", now, now⟩ : Task)
        ∈ (CreateTask body now fl s).sys.rows) := by
  refine ⟨?_, createTask_cache body now fl s, ?_⟩
  · unfold CreateTask
    simp only [hdec, if_neg htitle]
    cases hins : insertTask fl s req.Title req.Description "pending" now with
    | mk res s1 =>
      cases res with
      | err e => rfl
      | ok taskID => rfl
  · intro taskID hok
    have hC : CreateTask body now fl s = ⟨jsonResponse 201 (jsonEncodeID taskID),
        [.dbInsert req.Title req.Description "pending" now (.ok taskID)],
        (insertTask fl s req.Title req.Description "pending" now).2⟩ := by
      unfold CreateTask
      simp only [hdec, if_neg htitle]
      cases hins : insertTask fl s req.Title req.Description "pending" now with
      | mk res s1 =>
        rw [hins] at hok
        change res = Res.ok taskID at hok
        rw [hok]
    rw [hC]
    refine ⟨rfl, rfl, rfl, ?_⟩
    unfold insertTask at hok ⊢
    cases hq : fl.queryErr with
    | some msg => simp [hq] at hok
    | none =>
      cases hsc : fl.scanErr with
      | some msg => simp [hq, hsc] at hok
      | none =>
        simp only [hq, hsc, Res.ok.injEq] at hok ⊢
        rw [hok]
        simp

/-- Witness of C13: a create with title `x` on the sample store inserts the
row with id 2 and is answered 201. -/
theorem createTask_insert_witness :
    (CreateTask (.object [("title", .string "x")]) sampleLater noFaults sampleSys).effects =
      [.dbInsert "x" "" "pending" sampleLater
        (insertTask noFaults sampleSys "x" "" "pending" sampleLater).1] ∧
    (CreateTask (.object [("title", .string "x")]) sampleLater noFaults sampleSys).sys.cache
      = sampleSys.cache ∧
    (∀ taskID, (insertTask noFaults sampleSys "x" "" "pending" sampleLater).1 = .ok taskID →
      (CreateTask (.object [("title", .string "x")]) sampleLater noFaults sampleSys).resp
        = jsonResponse 201 (jsonEncodeID taskID) ∧
      (CreateTask (.object [("title", .string "x")]) sampleLater noFaults
        sampleSys).resp.status = 201 ∧
      (CreateTask (.object [("title", .string "x")]) sampleLater noFaults sampleSys).resp.body
        = "\x7b\"id\":" ++ formatInt taskID ++ "\x7d\n" ∧
      (⟨taskID, "x", "", "pending", sampleLater, sampleLater⟩ : Task)
        ∈ (CreateTask (.object [("title", .string "x")]) sampleLater noFaults
          sampleSys).sys.rows) :=
  createTask_insert (.object [("title", .string "x")]) ⟨"x", ""⟩ sampleLater noFaults sampleSys
    (by decide) (by decide)

/-- The pagination parameter is the parsed value when the text parses to a
positive integer and the default in every other case, the empty text included. -/
theorem pageParam_eq (text : String) (dflt : Int) :
    (∀ p, Atoi text = some p → 0 < p → pageParam text dflt = p) ∧
    (∀ p, Atoi text = some p → p ≤ 0 → pageParam text dflt = dflt) ∧
    (Atoi text = none → pageParam text dflt = dflt) := by
  refine ⟨?_, ?_, ?_⟩
  · intro p hp hpos
    have hne : text ≠ "" := by
      intro h
      rw [h] at hp
      have hnone : Atoi "" = none := by decide
      rw [hnone] at hp
      exact absurd hp (by simp)
    simp only [pageParam, hp, if_pos hne, gt_iff_lt, if_pos hpos]
  · intro p hp hle
    have hnot : ¬ p > 0 := by omega
    unfold pageParam
    split
    · simp only [hp, if_neg hnot]
    · rfl
  · intro hp
    unfold pageParam
    split
    · simp only [hp]
    · rfl

/-- The operations of one `ListTasks` call: exactly one store query, whose
limit is the page size read from `size` and whose offset is the 64-bit product
of page minus one and page size; no cache operation; both collaborators stay as
they were; with both parameters absent the limit is 10 and the offset 0; the
answer is 200 whenever the store serves the query, and 500 otherwise. -/
theorem listTasks_query (pageStr sizeStr : String) (fl : Faults) (s : Sys) :
    (ListTasks pageStr sizeStr fl s).effects =
      [.dbList (pageParam sizeStr 10)
        (wrapInt64 ((pageParam pageStr 1 - 1) * pageParam sizeStr 10))
        (queryTasks fl s.rows (pageParam sizeStr 10)
          (wrapInt64 ((pageParam pageStr 1 - 1) * pageParam sizeStr 10)))] ∧
    (ListTasks pageStr sizeStr fl s).sys = s ∧
    (ListTasks "" "" fl s).effects = [.dbList 10 0 (queryTasks fl s.rows 10 0)] ∧
    (∀ tasks, queryTasks fl s.rows (pageParam sizeStr 10)
        (wrapInt64 ((pageParam pageStr 1 - 1) * pageParam sizeStr 10)) = .ok tasks →
      fl.scanErr = none → fl.rowsErr = none →
      (ListTasks pageStr sizeStr fl s).resp = jsonResponse 200 (jsonEncodeTasks tasks)) ∧
    ((ListTasks pageStr sizeStr fl s).resp.status = 200 ∨
      (ListTasks pageStr sizeStr fl s).resp.status = 500) := by
  have hshape : ∀ a b : String, (ListTasks a b fl s).effects =
      [.dbList (pageParam b 10) (wrapInt64 ((pageParam a 1 - 1) * pageParam b 10))
        (queryTasks fl s.rows (pageParam b 10)
          (wrapInt64 ((pageParam a 1 - 1) * pageParam b 10)))] := by
    intro a b
    simp only [ListTasks]
    cases hq : queryTasks fl s.rows (pageParam b 10)
        (wrapInt64 ((pageParam a 1 - 1) * pageParam b 10)) with
    | err e => rfl
    | ok tasks =>
      simp only []
      split
      · rfl
      · split <;> rfl
  refine ⟨hshape pageStr sizeStr, listTasks_sys pageStr sizeStr fl s, ?_, ?_, ?_⟩
  · rw [hshape "" ""]
    rfl
  · intro tasks hq hscan hrows
    simp only [ListTasks, hq, hscan, hrows]
  · simp only [ListTasks]
    cases hq : queryTasks fl s.rows (pageParam sizeStr 10)
        (wrapInt64 ((pageParam pageStr 1 - 1) * pageParam sizeStr 10)) with
    | err e => exact Or.inr rfl
    | ok tasks =>
      simp only []
      split
      · exact Or.inr rfl
      · split
        · exact Or.inr rfl
        · exact Or.inl rfl

/-- C14, at the failing input. With `page=4611686018427387905` and `size=2`,
both of which parse to positive integers, and with neither collaborator raising
a fault of its own, the offset `(page-1) * pageSize` wraps to
`-9223372036854775808`, the store rejects the query and `ListTasks` answers 500:
an error caused by the two values alone. -/
theorem listTasks_error_from_values :
    Atoi "4611686018427387905" = some 4611686018427387905 ∧
    Atoi "2" = some 2 ∧
    (ListTasks "4611686018427387905" "2" noFaults sampleSys).effects =
      [.dbList 2 (-9223372036854775808) (.err "pq: OFFSET must not be negative")] ∧
    (ListTasks "4611686018427387905" "2" noFaults sampleSys).resp
      = httpError "Failed to list tasks" 500 ∧
    (ListTasks "" "" noFaults sampleSys).resp.status = 200 := by
  refine ⟨by decide, by decide, by decide, by decide, by decide⟩

/-- C15, at the failing input. With `page=4611686018427387905` and `size=4`,
both accepted, the offset passed to the store is 0 and not the integer
`(page-1) * pageSize = 18446744073709551616`; with `size=2` the offset passed is
`-9223372036854775808`, which is negative. -/
theorem listTasks_offset_wraps :
    pageParam "4611686018427387905" 1 = 4611686018427387905 ∧
    pageParam "4" 10 = 4 ∧ pageParam "2" 10 = 2 ∧
    (ListTasks "4611686018427387905" "4" noFaults sampleSys).effects =
      [.dbList 4 0 (.ok [sampleTask])] ∧
    ((4611686018427387905 : Int) - 1) * 4 = 18446744073709551616 ∧
    (ListTasks "4611686018427387905" "2" noFaults sampleSys).effects =
      [.dbList 2 (-9223372036854775808) (.err "pq: OFFSET must not be negative")] ∧
    wrapInt64 (((4611686018427387905 : Int) - 1) * 2) < 0 := by
  refine ⟨by decide, by decide, by decide, by decide, by decide, by decide, by decide⟩

/-- C16, at the failing input. Listing an empty table succeeds with 200, and
the body is `null` followed by a newline, not the empty array; with the sample
row in the table the body is the array of its serialization. -/
theorem listTasks_empty_is_null :
    (ListTasks "" "" noFaults emptySys).effects = [.dbList 10 0 (.ok [])] ∧
    (ListTasks "" "" noFaults emptySys).resp = jsonResponse 200 "null\n" ∧
    (ListTasks "" "" noFaults emptySys).resp.body ≠ "[]\n" ∧
    (ListTasks "" "" noFaults sampleSys).resp.body = "[" ++ jsonMarshal sampleTask ++ "]\n" := by
  refine ⟨by decide, by decide, by decide, by rfl⟩

/-- Two optional errors of the same class are both absent or both present. -/
theorem isSome_cases (x y : Option String) (h : (x.isSome == y.isSome) = true) :
    (x = none ∧ y = none) ∨ (∃ m n, x = some m ∧ y = some n) := by
  cases x with
  | none =>
    cases y with
    | none => exact Or.inl ⟨rfl, rfl⟩
    | some n => simp at h
  | some m =>
    cases y with
    | none => simp at h
    | some n => exact Or.inr ⟨m, n, rfl, rfl⟩

/-- The class of two fault records, field by field. -/
theorem sameClass_fields (a b : Faults) (h : a.sameClass b = true) :
    (a.getErr.isSome == b.getErr.isSome) = true ∧
    (a.queryErr.isSome == b.queryErr.isSome) = true ∧
    (a.scanErr.isSome == b.scanErr.isSome) = true ∧
    (a.rowsErr.isSome == b.rowsErr.isSome) = true ∧
    (a.rowsAffectedErr.isSome == b.rowsAffectedErr.isSome) = true := by
  simp only [Faults.sameClass, Bool.and_eq_true] at h
  obtain ⟨⟨⟨⟨⟨⟨h1, _⟩, _⟩, h4⟩, h5⟩, h6⟩, h7⟩ := h
  exact ⟨h1, h4, h5, h6, h7⟩

/-- Under faults of the same class the cache lookup gives the same answer or
fails both times. -/
theorem redisGet_class (a b : Faults) (c : List Entry) (key : String)
    (h : (a.getErr.isSome == b.getErr.isSome) = true) :
    redisGet a c key = redisGet b c key ∨
    ∃ e1 e2, redisGet a c key = .err e1 ∧ redisGet b c key = .err e2 := by
  rcases isSome_cases _ _ h with ⟨h1, h2⟩ | ⟨m, n, h1, h2⟩
  · left
    simp only [redisGet, h1, h2]
  · right
    exact ⟨.other m, .other n, by simp only [redisGet, h1], by simp only [redisGet, h2]⟩

/-- Under faults of the same class the select gives the same outcome or fails
both times with an error other than `sql.ErrNoRows`. -/
theorem selectTask_class (a b : Faults) (rows : List Task) (id : Int)
    (hq : (a.queryErr.isSome == b.queryErr.isSome) = true)
    (hs : (a.scanErr.isSome == b.scanErr.isSome) = true) :
    selectTask a rows id = selectTask b rows id ∨
    ∃ m n, selectTask a rows id = .err (.other m) ∧ selectTask b rows id = .err (.other n) := by
  rcases isSome_cases _ _ hq with ⟨h1, h2⟩ | ⟨m, n, h1, h2⟩
  · rcases isSome_cases _ _ hs with ⟨h3, h4⟩ | ⟨m, n, h3, h4⟩
    · left
      simp only [selectTask, h1, h2, h3, h4]
    · cases hf : rows.find? (fun r => r.ID == id) with
      | none =>
        left
        simp only [selectTask, h1, h2, hf]
      | some t =>
        right
        exact ⟨m, n, by simp only [selectTask, h1, hf, h3], by simp only [selectTask, h2, hf, h4]⟩
  · right
    exact ⟨m, n, by simp only [selectTask, h1], by simp only [selectTask, h2]⟩

/-- Under faults of the same class the update gives the same outcome or fails
both times with an error other than `sql.ErrNoRows`. -/
theorem updateTask_class (a b : Faults) (rows : List Task) (x y z : Option String) (now : Time)
    (id : Int) (hq : (a.queryErr.isSome == b.queryErr.isSome) = true)
    (hs : (a.scanErr.isSome == b.scanErr.isSome) = true) :
    updateTask a rows x y z now id = updateTask b rows x y z now id ∨
    ∃ m n rows1, updateTask a rows x y z now id = (.err (.other m), rows1) ∧
      updateTask b rows x y z now id = (.err (.other n), rows1) := by
  rcases isSome_cases _ _ hq with ⟨h1, h2⟩ | ⟨m, n, h1, h2⟩
  · rcases isSome_cases _ _ hs with ⟨h3, h4⟩ | ⟨m, n, h3, h4⟩
    · left
      simp only [updateTask, h1, h2, h3, h4]
    · cases hf : (rows.map (fun r => if r.ID = id then coalesceRow x y z now r else r)).find?
          (fun r => r.ID == id) with
      | none =>
        left
        simp only [updateTask, h1, h2, hf]
      | some t =>
        right
        exact ⟨m, n, rows.map (fun r => if r.ID = id then coalesceRow x y z now r else r),
          by simp only [updateTask, h1, hf, h3], by simp only [updateTask, h2, hf, h4]⟩
  · right
    exact ⟨m, n, rows, by simp only [updateTask, h1], by simp only [updateTask, h2]⟩

/-- Under faults of the same class the insert gives the same outcome or fails
both times. -/
theorem insertTask_class (a b : Faults) (s : Sys) (x y z : String) (now : Time)
    (hq : (a.queryErr.isSome == b.queryErr.isSome) = true)
    (hs : (a.scanErr.isSome == b.scanErr.isSome) = true) :
    insertTask a s x y z now = insertTask b s x y z now ∨
    ∃ m n s1, insertTask a s x y z now = (.err m, s1) ∧
      insertTask b s x y z now = (.err n, s1) := by
  rcases isSome_cases _ _ hq with ⟨h1, h2⟩ | ⟨m, n, h1, h2⟩
  · rcases isSome_cases _ _ hs with ⟨h3, h4⟩ | ⟨m, n, h3, h4⟩
    · left
      simp only [insertTask, h1, h2, h3, h4]
    · right
      exact ⟨m, n, { s with rows := s.rows ++ [⟨s.nextID, x, y, z, now, now⟩]
                            nextID := s.nextID + 1 },
        by simp only [insertTask, h1, h3], by simp only [insertTask, h2, h4]⟩
  · right
    exact ⟨m, n, s, by simp only [insertTask, h1], by simp only [insertTask, h2]⟩

/-- Under faults of the same class the delete gives the same outcome or fails
both times. -/
theorem deleteTask_class (a b : Faults) (rows : List Task) (id : Int)
    (hq : (a.queryErr.isSome == b.queryErr.isSome) = true) :
    deleteTask a rows id = deleteTask b rows id ∨
    ∃ m n, deleteTask a rows id = (.err m, rows) ∧ deleteTask b rows id = (.err n, rows) := by
  rcases isSome_cases _ _ hq with ⟨h1, h2⟩ | ⟨m, n, h1, h2⟩
  · left
    simp only [deleteTask, h1, h2]
  · right
    exact ⟨m, n, by simp only [deleteTask, h1], by simp only [deleteTask, h2]⟩

/-- Under faults of the same class the list query gives the same outcome or
fails both times. -/
theorem queryTasks_class (a b : Faults) (rows : List Task) (limit offset : Int)
    (hq : (a.queryErr.isSome == b.queryErr.isSome) = true) :
    queryTasks a rows limit offset = queryTasks b rows limit offset ∨
    ∃ m n, queryTasks a rows limit offset = .err m ∧ queryTasks b rows limit offset = .err n := by
  rcases isSome_cases _ _ hq with ⟨h1, h2⟩ | ⟨m, n, h1, h2⟩
  · left
    simp only [queryTasks, h1, h2]
  · right
    exact ⟨m, n, by simp only [queryTasks, h1], by simp only [queryTasks, h2]⟩

/-- The response of `GetTask` is the same under faults of the same class. -/
theorem getTask_resp_class (idParam : String) (fl fl0 : Faults) (s : Sys)
    (h : fl.sameClass fl0 = true) :
    (GetTask idParam fl s).resp = (GetTask idParam fl0 s).resp := by
  obtain ⟨h1, h2, h3, _, _⟩ := sameClass_fields fl fl0 h
  unfold GetTask
  cases hid : ParseInt idParam with
  | none => rfl
  | some taskID =>
    simp only []
    rcases redisGet_class fl fl0 s.cache (cacheKey taskID) h1 with hg | ⟨e1, e2, hg1, hg2⟩
    · rw [hg]
      cases hres : redisGet fl0 s.cache (cacheKey taskID) with
      | ok v => rfl
      | err e =>
        simp only []
        rcases selectTask_class fl fl0 s.rows taskID h2 h3 with hs | ⟨m, n, hs1, hs2⟩
        · rw [hs]
          cases selectTask fl0 s.rows taskID with
          | err d => cases d <;> rfl
          | ok t => rfl
        · rw [hs1, hs2]
    · rw [hg1, hg2]
      simp only []
      rcases selectTask_class fl fl0 s.rows taskID h2 h3 with hs | ⟨m, n, hs1, hs2⟩
      · rw [hs]
        cases selectTask fl0 s.rows taskID with
        | err d => cases d <;> rfl
        | ok t => rfl
      · rw [hs1, hs2]

/-- The response of `UpdateTask` is the same under faults of the same class. -/
theorem updateTask_resp_class (idParam : String) (body : Body) (now : Time) (fl fl0 : Faults)
    (s : Sys) (h : fl.sameClass fl0 = true) :
    (UpdateTask idParam body now fl s).resp = (UpdateTask idParam body now fl0 s).resp := by
  obtain ⟨_, h2, h3, _, _⟩ := sameClass_fields fl fl0 h
  unfold UpdateTask
  cases hid : ParseInt idParam with
  | none => rfl
  | some taskID =>
    simp only []
    cases hdec : decodeUpdateTaskRequest body with
    | none => rfl
    | some req =>
      simp only []
      by_cases hst : req.Status ≠ "" ∧ req.Status ≠ "pending" ∧ req.Status ≠ "in_progress"
          ∧ req.Status ≠ "completed"
      · rw [if_pos hst, if_pos hst]
      · rw [if_neg hst, if_neg hst]
        rcases updateTask_class fl fl0 s.rows (nullString req.Title)
            (nullString req.Description) (nullString req.Status) now taskID h2 h3
          with hu | ⟨m, n, rows1, hu1, hu2⟩
        · rw [hu]
          cases updateTask fl0 s.rows (nullString req.Title) (nullString req.Description)
              (nullString req.Status) now taskID with
          | mk res rows1 =>
            cases res with
            | err d => cases d <;> rfl
            | ok t => rfl
        · rw [hu1, hu2]

/-- The response of `DeleteTask` is the same under faults of the same class. -/
theorem deleteTask_resp_class (idParam : String) (fl fl0 : Faults) (s : Sys)
    (h : fl.sameClass fl0 = true) :
    (DeleteTask idParam fl s).resp = (DeleteTask idParam fl0 s).resp := by
  obtain ⟨_, h2, _, _, h5⟩ := sameClass_fields fl fl0 h
  unfold DeleteTask
  cases hid : ParseInt idParam with
  | none => rfl
  | some taskID =>
    simp only []
    rcases deleteTask_class fl fl0 s.rows taskID h2 with hd | ⟨m, n, hd1, hd2⟩
    · rw [hd]
      cases deleteTask fl0 s.rows taskID with
      | mk res rows1 =>
        cases res with
        | err msg => rfl
        | ok k =>
          simp only []
          rcases isSome_cases _ _ h5 with ⟨hr1, hr2⟩ | ⟨m, n, hr1, hr2⟩
          · rw [hr1, hr2]
            simp only []
            by_cases hz : k = 0
            · rw [if_pos hz, if_pos hz]
            · rw [if_neg hz, if_neg hz]
          · rw [hr1, hr2]
    · rw [hd1, hd2]

/-- The response of `CreateTask` is the same under faults of the same class. -/
theorem createTask_resp_class (body : Body) (now : Time) (fl fl0 : Faults) (s : Sys)
    (h : fl.sameClass fl0 = true) :
    (CreateTask body now fl s).resp = (CreateTask body now fl0 s).resp := by
  obtain ⟨_, h2, h3, _, _⟩ := sameClass_fields fl fl0 h
  unfold CreateTask
  cases hdec : decodeCreateTaskRequest body with
  | none => rfl
  | some req =>
    simp only []
    by_cases ht : req.Title = ""
    · rw [if_pos ht, if_pos ht]
    · rw [if_neg ht, if_neg ht]
      rcases insertTask_class fl fl0 s req.Title req.Description "pending" now h2 h3
        with hi | ⟨m, n, s1, hi1, hi2⟩
      · rw [hi]
      · rw [hi1, hi2]

/-- The response of `ListTasks` is the same under faults of the same class. -/
theorem listTasks_resp_class (pageStr sizeStr : String) (fl fl0 : Faults) (s : Sys)
    (h : fl.sameClass fl0 = true) :
    (ListTasks pageStr sizeStr fl s).resp = (ListTasks pageStr sizeStr fl0 s).resp := by
  obtain ⟨_, h2, h3, h4, _⟩ := sameClass_fields fl fl0 h
  simp only [ListTasks]
  rcases queryTasks_class fl fl0 s.rows (pageParam sizeStr 10)
      (wrapInt64 ((pageParam pageStr 1 - 1) * pageParam sizeStr 10)) h2
    with hq | ⟨m, n, hq1, hq2⟩
  · rw [hq]
    cases queryTasks fl0 s.rows (pageParam sizeStr 10)
        (wrapInt64 ((pageParam pageStr 1 - 1) * pageParam sizeStr 10)) with
    | err e => rfl
    | ok tasks =>
      simp only []
      rcases isSome_cases _ _ h3 with ⟨hs1, hs2⟩ | ⟨m, n, hs1, hs2⟩ <;>
        rcases isSome_cases _ _ h4 with ⟨hr1, hr2⟩ | ⟨m1, n1, hr1, hr2⟩ <;>
        rw [hs1, hs2, hr1, hr2] <;> cases tasks <;> rfl
  · rw [hq1, hq2]

/-- C17. For each of the five handlers and every request, two runs that differ
only in the texts of the errors the store (or the cache) raises, the errors
being raised at the same places, give the same response: status, header and
body are fixed per failure class and carry no text of the underlying error. -/
theorem error_text_never_leaks (idParam pageStr sizeStr : String) (body : Body) (now : Time)
    (fl fl0 : Faults) (s : Sys) (h : fl.sameClass fl0 = true) :
    (CreateTask body now fl s).resp = (CreateTask body now fl0 s).resp ∧
    (GetTask idParam fl s).resp = (GetTask idParam fl0 s).resp ∧
    (UpdateTask idParam body now fl s).resp = (UpdateTask idParam body now fl0 s).resp ∧
    (DeleteTask idParam fl s).resp = (DeleteTask idParam fl0 s).resp ∧
    (ListTasks pageStr sizeStr fl s).resp = (ListTasks pageStr sizeStr fl0 s).resp :=
  ⟨createTask_resp_class body now fl fl0 s h, getTask_resp_class idParam fl fl0 s h,
    updateTask_resp_class idParam body now fl fl0 s h, deleteTask_resp_class idParam fl fl0 s h,
    listTasks_resp_class pageStr sizeStr fl fl0 s h⟩

/-- Witness of C17: a refused connection and a syntax error reported by the
store give the same responses on the sample store. -/
theorem error_text_never_leaks_witness :
    (CreateTask (.object [("title", .string "x")]) sampleLater storeRefused sampleSys).resp
      = (CreateTask (.object [("title", .string "x")]) sampleLater storeSyntax sampleSys).resp ∧
    (GetTask "1" storeRefused sampleSys).resp = (GetTask "1" storeSyntax sampleSys).resp ∧
    (UpdateTask "1" (.object [("title", .string "x")]) sampleLater storeRefused sampleSys).resp
      = (UpdateTask "1" (.object [("title", .string "x")]) sampleLater storeSyntax
        sampleSys).resp ∧
    (DeleteTask "1" storeRefused sampleSys).resp = (DeleteTask "1" storeSyntax sampleSys).resp ∧
    (ListTasks "1" "10" storeRefused sampleSys).resp
      = (ListTasks "1" "10" storeSyntax sampleSys).resp :=
  error_text_never_leaks "1" "1" "10" (.object [("title", .string "x")]) sampleLater
    storeRefused storeSyntax sampleSys (by decide)

/-- The value `getEnv` returns for a variable that is set and non-empty. -/
theorem getEnv_set (env : Environ) (key fallback v : String) (h : env key = some v)
    (hv : v ≠ "") : getEnv env key fallback = v := by
  simp only [getEnv, h, if_neg hv]

/-- The value `getEnv` returns for a variable that is unset or empty. -/
theorem getEnv_unset (env : Environ) (key fallback : String)
    (h : env key = none ∨ env key = some "") : getEnv env key fallback = fallback := by
  rcases h with h | h <;> simp [getEnv, h]

/-- C18, as the code has it. `getEnv` returns the variable's value when it is
set and non-empty and the fallback otherwise; `NewConfig` on an environment
whose `DB_*` variables are all unset or empty yields localhost, 5432, postgres,
postgres, queuet, disable; `NewRedisConfig` on one whose `REDIS_*` variables are
all unset or empty yields localhost, 6379 and the empty password; every string
field set to a non-empty value is returned as set; and the Redis port is the
integer its variable denotes when the value parses as one (otherwise it is what
`strconv.Atoi` returns next to its error, which is dropped). -/
theorem config_from_env (env : Environ) :
    (∀ key fallback v, env key = some v → v ≠ "" → getEnv env key fallback = v) ∧
    (∀ key fallback, (env key = none ∨ env key = some "") →
      getEnv env key fallback = fallback) ∧
    ((∀ key ∈ ["DB_HOST", "DB_PORT", "DB_USER", "DB_PASSWORD", "DB_NAME", "DB_SSLMODE"],
        env key = none ∨ env key = some "") →
      NewConfig env = ⟨"localhost", "5432", "postgres", "postgres", "queuet", "disable"⟩) ∧
    ((∀ key ∈ ["REDIS_HOST", "REDIS_PORT", "REDIS_PASSWORD"],
        env key = none ∨ env key = some "") →
      NewRedisConfig env = ⟨"localhost", 6379, ""⟩) ∧
    (∀ v, env "DB_HOST" = some v → v ≠ "" → (NewConfig env).Host = v) ∧
    (∀ v, env "DB_PORT" = some v → v ≠ "" → (NewConfig env).Port = v) ∧
    (∀ v, env "DB_USER" = some v → v ≠ "" → (NewConfig env).User = v) ∧
    (∀ v, env "DB_PASSWORD" = some v → v ≠ "" → (NewConfig env).Password = v) ∧
    (∀ v, env "DB_NAME" = some v → v ≠ "" → (NewConfig env).DBName = v) ∧
    (∀ v, env "DB_SSLMODE" = some v → v ≠ "" → (NewConfig env).SSLMode = v) ∧
    (∀ v, env "REDIS_HOST" = some v → v ≠ "" → (NewRedisConfig env).Host = v) ∧
    (∀ v, env "REDIS_PASSWORD" = some v → v ≠ "" → (NewRedisConfig env).Password = v) ∧
    (∀ v n, env "REDIS_PORT" = some v → v ≠ "" → Atoi v = some n →
      (NewRedisConfig env).Port = n) ∧
    (∀ v, env "REDIS_PORT" = some v → v ≠ "" → (NewRedisConfig env).Port = atoiValue v) := by
  refine ⟨fun key fallback v h hv => getEnv_set env key fallback v h hv,
    fun key fallback h => getEnv_unset env key fallback h, ?_, ?_,
    fun v h hv => getEnv_set env _ _ v h hv, fun v h hv => getEnv_set env _ _ v h hv,
    fun v h hv => getEnv_set env _ _ v h hv, fun v h hv => getEnv_set env _ _ v h hv,
    fun v h hv => getEnv_set env _ _ v h hv, fun v h hv => getEnv_set env _ _ v h hv,
    fun v h hv => getEnv_set env _ _ v h hv, fun v h hv => getEnv_set env _ _ v h hv, ?_, ?_⟩
  · intro h
    simp only [NewConfig]
    rw [getEnv_unset env "DB_HOST" _ (h _ (by simp)), getEnv_unset env "DB_PORT" _ (h _ (by simp)),
      getEnv_unset env "DB_USER" _ (h _ (by simp)),
      getEnv_unset env "DB_PASSWORD" _ (h _ (by simp)),
      getEnv_unset env "DB_NAME" _ (h _ (by simp)),
      getEnv_unset env "DB_SSLMODE" _ (h _ (by simp))]
  · intro h
    simp only [NewRedisConfig]
    rw [getEnv_unset env "REDIS_HOST" _ (h _ (by simp)),
      getEnv_unset env "REDIS_PORT" _ (h _ (by simp)),
      getEnv_unset env "REDIS_PASSWORD" _ (h _ (by simp))]
    have hport : atoiValue "6379" = 6379 := by decide
    rw [hport]
  · intro v n h hv hn
    simp only [NewRedisConfig, getEnv_set env _ _ v h hv]
    have hp : ParseInt v = some n := hn
    simp only [atoiValue, hp]
  · intro v h hv
    simp only [NewRedisConfig, getEnv_set env _ _ v h hv]

/-- Witness of the amended C18: the environments of the repository's tests. -/
theorem config_from_env_witness :
    NewConfig blankEnv = ⟨"localhost", "5432", "postgres", "postgres", "queuet", "disable"⟩ ∧
    NewRedisConfig blankEnv = ⟨"localhost", 6379, ""⟩ ∧
    (NewConfig customEnv).Host = "testhost" ∧ (NewConfig customEnv).Port = "5433" ∧
    (NewRedisConfig customEnv).Host = "testhost" ∧
    (NewRedisConfig customEnv).Password = "testpass" ∧
    (NewRedisConfig customEnv).Port = 6380 :=
  ⟨(config_from_env blankEnv).2.2.1 (fun _ _ => Or.inr rfl),
    (config_from_env blankEnv).2.2.2.1 (fun _ _ => Or.inr rfl),
    (config_from_env customEnv).2.2.2.2.1 "testhost" (by decide) (by decide),
    (config_from_env customEnv).2.2.2.2.2.1 "5433" (by decide) (by decide),
    (config_from_env customEnv).2.2.2.2.2.2.2.2.2.2.1 "testhost" (by decide) (by decide),
    (config_from_env customEnv).2.2.2.2.2.2.2.2.2.2.2.1 "testpass" (by decide) (by decide),
    (config_from_env customEnv).2.2.2.2.2.2.2.2.2.2.2.2.1 "6380" 6380 (by decide) (by decide)
      (by decide)⟩

/-- Counterexample to C18 as stated: with `REDIS_PORT` set to the non-empty
value `abc`, the port `NewRedisConfig` returns is 0, which is not the value
set: `abc` is not the decimal text of 0, nor of any integer `Atoi` accepts. -/
theorem redis_port_not_as_set :
    badPortEnv "REDIS_PORT" = some "abc" ∧ "abc" ≠ "" ∧
    NewRedisConfig badPortEnv = ⟨"localhost", 0, ""⟩ ∧
    (NewRedisConfig badPortEnv).Port = 0 ∧
    formatInt (NewRedisConfig badPortEnv).Port ≠ "abc" ∧
    Atoi "abc" = none := by
  refine ⟨by decide, by decide, by decide, by decide, by decide, by decide⟩

/-- A row found by id is still the row found after another row is appended. -/
theorem find_id_append (rows : List Task) (x t : Task) (i : Int)
    (h : rows.find? (fun r => r.ID == i) = some t) :
    (rows ++ [x]).find? (fun r => r.ID == i) = some t := by
  rw [List.find?_append, h]
  rfl

/-- The update by one id leaves the row found under any other id as it was. -/
theorem find_id_update_ne (rows : List Task) (a b c : Option String) (now : Time) (id i : Int)
    (hne : i ≠ id) :
    (rows.map (fun r => if r.ID = id then coalesceRow a b c now r else r)).find?
      (fun r => r.ID == i) = rows.find? (fun r => r.ID == i) := by
  rw [find_id_map rows _ (coalesce_keeps_id a b c now id) i]
  cases hf : rows.find? (fun r => r.ID == i) with
  | none => rfl
  | some t =>
    have ht : t.ID = i := (find_id_some rows i t hf).2
    have hne2 : ¬ t.ID = id := by
      rw [ht]
      exact hne
    simp only [Option.map_some', if_neg hne2]

/-- The delete by one id leaves the row found under any other id as it was. -/
theorem find_id_delete_ne (rows : List Task) (id i : Int) (hne : i ≠ id) :
    (rows.filter (fun r => r.ID != id)).find? (fun r => r.ID == i)
      = rows.find? (fun r => r.ID == i) := by
  induction rows with
  | nil => rfl
  | cons r rest ih =>
    by_cases hr : r.ID = id
    · have hri : ¬ r.ID = i := by
        rw [hr]
        exact fun h => hne h.symm
      simp only [List.filter_cons, List.find?_cons, hr, bne_self_eq_false, Bool.false_eq_true,
        if_false]
      rw [ih]
      have hb : (id == i) = false := by
        rw [← hr]
        simpa using hri
      simp only [hb]
    · have hb : (r.ID != id) = true := by simpa using hr
      simp only [List.filter_cons, hb, if_true, List.find?_cons, ih]

/-- A record the select returns is the row found under the id asked for. -/
theorem selectTask_ok_find (fl : Faults) (rows : List Task) (id : Int) (t : Task)
    (h : selectTask fl rows id = .ok t) : rows.find? (fun r => r.ID == id) = some t := by
  unfold selectTask at h
  cases hq : fl.queryErr with
  | some msg => simp [hq] at h
  | none =>
    simp only [hq] at h
    cases hf : rows.find? (fun r => r.ID == id) with
    | none => simp [hf] at h
    | some t1 =>
      simp only [hf] at h
      cases hs : fl.scanErr with
      | some msg => simp [hs] at h
      | none =>
        simp only [hs, Res.ok.injEq] at h
        rw [h]

/-- An entry of the cache after a set that succeeded is the entry set or an
old entry under another key. -/
theorem mem_redisSet_ok (fl : Faults) (c : List Entry) (key value : String) (ttl : Int)
    (e : Entry) (hset : fl.setErr = none) (h : e ∈ redisSet fl c key value ttl) :
    (e.key = key ∧ e.value = value) ∨ (e ∈ c ∧ e.key ≠ key) := by
  simp only [redisSet, hset, List.mem_cons, List.mem_filter] at h
  rcases h with h | ⟨h1, h2⟩
  · left
    rw [h]
    exact ⟨rfl, rfl⟩
  · right
    exact ⟨h1, by simpa using h2⟩

/-- An entry of the cache after a delete that succeeded is an old entry under
another key. -/
theorem mem_redisDel_ok (fl : Faults) (c : List Entry) (key : String) (e : Entry)
    (hdel : fl.delErr = none) (h : e ∈ redisDel fl c key) : e ∈ c ∧ e.key ≠ key := by
  simp only [redisDel, hdel, List.mem_filter] at h
  exact ⟨h.1, by simpa using h.2⟩

/-- What the update statement leaves in the table, by outcome: with an error
raised before it ran nothing changes; with no row matched or a row returned the
rows are merged and the row found under the id is the outcome. -/
theorem updateTask_rows (fl : Faults) (rows rows1 : List Task) (a b c : Option String)
    (now : Time) (id : Int) (res : Res DbErr Task)
    (h : updateTask fl rows a b c now id = (res, rows1)) (hscan : fl.scanErr = none) :
    (∃ msg, res = .err (.other msg) ∧ rows1 = rows) ∨
    (rows1 = rows.map (fun r => if r.ID = id then coalesceRow a b c now r else r) ∧
      ((res = .err .ErrNoRows ∧ rows1.find? (fun r => r.ID == id) = none) ∨
       (∃ t, res = .ok t ∧ rows1.find? (fun r => r.ID == id) = some t))) := by
  unfold updateTask at h
  cases hq : fl.queryErr with
  | some msg =>
    simp only [hq, Prod.mk.injEq] at h
    exact Or.inl ⟨msg, h.1.symm, h.2.symm⟩
  | none =>
    simp only [hq] at h
    cases hf : (rows.map (fun r => if r.ID = id then coalesceRow a b c now r else r)).find?
        (fun r => r.ID == id) with
    | none =>
      simp only [hf, Prod.mk.injEq] at h
      right
      refine ⟨h.2.symm, Or.inl ⟨h.1.symm, ?_⟩⟩
      rw [← h.2]
      exact hf
    | some t =>
      simp only [hf, hscan, Prod.mk.injEq] at h
      right
      refine ⟨h.2.symm, Or.inr ⟨t, h.1.symm, ?_⟩⟩
      rw [← h.2]
      exact hf

/-- `CreateTask` keeps the rows of the table, possibly with one row appended. -/
theorem createTask_rows (body : Body) (now : Time) (fl : Faults) (s : Sys) :
    (CreateTask body now fl s).sys.rows = s.rows ∨
    ∃ x, (CreateTask body now fl s).sys.rows = s.rows ++ [x] := by
  unfold CreateTask
  cases decodeCreateTaskRequest body with
  | none => exact Or.inl rfl
  | some req =>
    simp only []
    by_cases ht : req.Title = ""
    · rw [if_pos ht]
      exact Or.inl rfl
    · rw [if_neg ht]
      unfold insertTask
      cases fl.queryErr with
      | some msg => exact Or.inl rfl
      | none =>
        cases fl.scanErr with
        | some msg => exact Or.inr ⟨_, rfl⟩
        | none => exact Or.inr ⟨_, rfl⟩

/-- `CreateTask` keeps the cache in agreement with the store. -/
theorem agrees_create (body : Body) (now : Time) (fl : Faults) (s : Sys) (h : Agrees s) :
    Agrees (CreateTask body now fl s).sys := by
  intro e he
  rw [createTask_cache] at he
  obtain ⟨t, hfind, hk, hv⟩ := h e he
  refine ⟨t, ?_, hk, hv⟩
  rcases createTask_rows body now fl s with hr | ⟨x, hr⟩
  · rw [hr]
    exact hfind
  · rw [hr]
    exact find_id_append s.rows x t t.ID hfind

/-- `GetTask` keeps the cache in agreement with the store. -/
theorem agrees_get (idParam : String) (fl : Faults) (s : Sys) (h : Agrees s) :
    Agrees (GetTask idParam fl s).sys := by
  unfold GetTask
  cases hid : ParseInt idParam with
  | none => exact h
  | some taskID =>
    simp only []
    cases hg : redisGet fl s.cache (cacheKey taskID) with
    | ok v => exact h
    | err ce =>
      simp only []
      cases hsel : selectTask fl s.rows taskID with
      | err d => cases d <;> exact h
      | ok task =>
        simp only []
        intro e he
        have hfind := selectTask_ok_find fl s.rows taskID task hsel
        have htid : task.ID = taskID := (find_id_some s.rows taskID task hfind).2
        rcases mem_redisSet fl s.cache _ _ _ e he with h1 | ⟨hk, hv⟩
        · exact h e h1
        · refine ⟨task, ?_, by rw [hk, htid], hv⟩
          rw [htid]
          exact hfind

/-- `UpdateTask` keeps the cache in agreement with the store when its cache set
succeeds and no error is raised after the statement ran. -/
theorem agrees_update (idParam : String) (body : Body) (now : Time) (fl : Faults) (s : Sys)
    (hset : fl.setErr = none) (hscan : fl.scanErr = none) (h : Agrees s) :
    Agrees (UpdateTask idParam body now fl s).sys := by
  unfold UpdateTask
  cases hid : ParseInt idParam with
  | none => exact h
  | some taskID =>
    simp only []
    cases hdec : decodeUpdateTaskRequest body with
    | none => exact h
    | some req =>
      simp only []
      by_cases hst : req.Status ≠ "" ∧ req.Status ≠ "pending" ∧ req.Status ≠ "in_progress"
          ∧ req.Status ≠ "completed"
      · rw [if_pos hst]
        exact h
      · rw [if_neg hst]
        cases hupd : updateTask fl s.rows (nullString req.Title) (nullString req.Description)
            (nullString req.Status) now taskID with
        | mk res rows1 =>
          have hold : ∀ e ∈ s.cache, (∀ t : Task, e.key = cacheKey t.ID → t.ID ≠ taskID) →
              rows1 = s.rows.map (fun r => if r.ID = taskID then
                coalesceRow (nullString req.Title) (nullString req.Description)
                  (nullString req.Status) now r else r) →
              ∃ t : Task, rows1.find? (fun r => r.ID == t.ID) = some t ∧
                e.key = cacheKey t.ID ∧ e.value = jsonMarshal t := by
            intro e he hne hmap
            obtain ⟨t, hfind, hk, hv⟩ := h e he
            refine ⟨t, ?_, hk, hv⟩
            rw [hmap, find_id_update_ne s.rows _ _ _ now taskID t.ID (hne t hk)]
            exact hfind
          rcases updateTask_rows fl s.rows rows1 _ _ _ now taskID res hupd hscan with
            ⟨msg, hres, hrows⟩ | ⟨hmap, ⟨hres, hnone⟩ | ⟨task, hres, hsome⟩⟩
          · rw [hres, hrows]
            exact h
          · rw [hres]
            simp only []
            intro e he
            refine hold e he ?_ hmap
            intro t hk hid2
            obtain ⟨t0, hfind0, hk0, _⟩ := h e he
            have heq : t0.ID = t.ID := cacheKey_eq _ _ (by rw [← hk0, hk])
            rw [heq, hid2] at hfind0
            rw [hmap, find_id_map s.rows _ (coalesce_keeps_id _ _ _ now taskID) taskID,
              hfind0] at hnone
            exact absurd hnone (by simp)
          · rw [hres]
            simp only []
            intro e he
            rcases mem_redisSet_ok fl s.cache _ _ _ e hset he with ⟨hk, hv⟩ | ⟨hmem, hk⟩
            · have htid : task.ID = taskID := (find_id_some rows1 taskID task hsome).2
              refine ⟨task, ?_, by rw [hk, htid], hv⟩
              rw [htid]
              exact hsome
            · refine hold e hmem ?_ hmap
              intro t hkt hid2
              apply hk
              rw [hkt, hid2]

/-- `DeleteTask` keeps the cache in agreement with the store when its cache
delete succeeds and the row count of the delete can be read. -/
theorem agrees_delete (idParam : String) (fl : Faults) (s : Sys) (hdel : fl.delErr = none)
    (hrows : fl.rowsAffectedErr = none) (h : Agrees s) :
    Agrees (DeleteTask idParam fl s).sys := by
  unfold DeleteTask
  cases hid : ParseInt idParam with
  | none => exact h
  | some taskID =>
    simp only []
    cases hq : fl.queryErr with
    | some msg =>
      simp only [deleteTask, hq]
      exact h
    | none =>
      simp only [deleteTask, hq, hrows]
      have hold : ∀ e ∈ s.cache, (∀ t : Task, e.key = cacheKey t.ID → t.ID ≠ taskID) →
          ∃ t : Task, (s.rows.filter (fun r => r.ID != taskID)).find? (fun r => r.ID == t.ID)
            = some t ∧ e.key = cacheKey t.ID ∧ e.value = jsonMarshal t := by
        intro e he hne
        obtain ⟨t, hfind, hk, hv⟩ := h e he
        refine ⟨t, ?_, hk, hv⟩
        rw [find_id_delete_ne s.rows taskID t.ID (hne t hk)]
        exact hfind
      by_cases hz : (s.rows.filter (fun r => r.ID == taskID)).length = 0
      · rw [if_pos hz]
        simp only []
        intro e he
        refine hold e he ?_
        intro t hk hid2
        obtain ⟨t0, hfind0, hk0, _⟩ := h e he
        have heq : t0.ID = t.ID := cacheKey_eq _ _ (by rw [← hk0, hk])
        rw [heq, hid2] at hfind0
        obtain ⟨hmem, hid0⟩ := find_id_some s.rows taskID t0 hfind0
        have hin : t0 ∈ s.rows.filter (fun r => r.ID == taskID) := by
          simp only [List.mem_filter, beq_iff_eq]
          exact ⟨hmem, hid0⟩
        rw [List.length_eq_zero] at hz
        rw [hz] at hin
        exact absurd hin (List.not_mem_nil _)
      · rw [if_neg hz]
        simp only []
        intro e he
        obtain ⟨hmem, hk⟩ := mem_redisDel_ok fl s.cache _ e hdel he
        refine hold e hmem ?_
        intro t hkt hid2
        apply hk
        rw [hkt, hid2]

/-- A settled step keeps the cache in agreement with the store. -/
theorem agrees_step (s : Sys) (st : Step) (hst : st.settled = true) (h : Agrees s) :
    Agrees (step s st) := by
  cases st with
  | create body now fl => exact agrees_create body now fl s h
  | get idParam fl => exact agrees_get idParam fl s h
  | update idParam body now fl =>
    simp only [Step.settled, Bool.and_eq_true, Option.isNone_iff_eq_none] at hst
    exact agrees_update idParam body now fl s hst.1 hst.2 h
  | delete idParam fl =>
    simp only [Step.settled, Bool.and_eq_true, Option.isNone_iff_eq_none] at hst
    exact agrees_delete idParam fl s hst.1 hst.2 h
  | list pageStr sizeStr fl =>
    simp only [step, listTasks_sys]
    exact h
  | expire key =>
    intro e he
    simp only [step, List.mem_filter] at he
    exact h e he.1

/-- A run of settled steps keeps the cache in agreement with the store. -/
theorem agrees_run (steps : List Step) (s : Sys) (hst : ∀ st ∈ steps, st.settled = true)
    (h : Agrees s) : Agrees (run s steps) := by
  induction steps generalizing s with
  | nil => exact h
  | cons st rest ih =>
    have h1 : Agrees (step s st) := agrees_step s st (hst st (List.mem_cons_self _ _)) h
    exact ih (step s st) (fun x hx => hst x (List.mem_cons_of_mem _ hx)) h1

/-- C19, as the code has it. Starting from an empty cache, after any finite
run of create, get, update, delete and list calls and expiries in which the
cache write of every update and delete succeeds and the store raises no error
after an update or a delete has run, every cache entry under the key of an id
`i` is the JSON serialization of the row the table now holds for `i`; in
particular the table holds a row for every id that has a cache entry. -/
theorem cache_agrees_with_store (s0 : Sys) (steps : List Step) (hempty : s0.cache = [])
    (hsettled : ∀ st ∈ steps, st.settled = true) (e : Entry)
    (he : e ∈ (run s0 steps).cache) (i : Int) (hkey : e.key = cacheKey i) :
    ∃ t : Task, (run s0 steps).rows.find? (fun r => r.ID == i) = some t ∧ t.ID = i ∧
      e.value = jsonMarshal t := by
  have h0 : Agrees s0 := by
    intro x hx
    rw [hempty] at hx
    exact absurd hx (List.not_mem_nil x)
  obtain ⟨t, hfind, hk, hv⟩ := agrees_run steps s0 hsettled h0 e he
  have hid : t.ID = i := cacheKey_eq _ _ (by rw [← hk, hkey])
  refine ⟨t, ?_, hid, hv⟩
  rw [← hid]
  exact hfind

/-- Witness of the amended C19: the sample task is read and then updated; the
cache entry is the serialization of the updated row the table holds. -/
theorem cache_agrees_with_store_witness :
    ∃ t : Task, (run sampleSys [.get "1" noFaults,
        .update "1" (.object [("status", .string "completed")]) sampleLater noFaults]).rows.find?
        (fun r => r.ID == 1) = some t ∧ t.ID = 1 ∧
      (⟨cacheKey 1, jsonMarshal ⟨1, "a", "", "completed", sampleTime, sampleLater⟩, Hour⟩
        : Entry).value = jsonMarshal t :=
  cache_agrees_with_store sampleSys [.get "1" noFaults,
      .update "1" (.object [("status", .string "completed")]) sampleLater noFaults] rfl
    (by decide)
    ⟨cacheKey 1, jsonMarshal ⟨1, "a", "", "completed", sampleTime, sampleLater⟩, Hour⟩
    (List.mem_cons_self _ _) 1 rfl

/-- Counterexample to C19 as stated: every cache command succeeds and no id is
reused, yet after the sample task is read and then deleted in a call whose row
count cannot be read, the cache holds an entry for id 1 while the table holds no
row; and after it is read and then updated in a call in which reading the
returned row fails, the entry for id 1 is the serialization of the old row, not
of the row the table holds. -/
theorem stale_entry_after_store_error :
    (∀ st ∈ [Step.get "1" noFaults, Step.delete "1" rowCountLost], st.cacheOK = true) ∧
    (run sampleSys [.get "1" noFaults, .delete "1" rowCountLost]).rows = [] ∧
    (⟨cacheKey 1, jsonMarshal sampleTask, Hour⟩ : Entry)
      ∈ (run sampleSys [.get "1" noFaults, .delete "1" rowCountLost]).cache ∧
    (∀ st ∈ [Step.get "1" noFaults,
      Step.update "1" (.object [("status", .string "completed")]) sampleLater rowLost],
      st.cacheOK = true) ∧
    (run sampleSys [.get "1" noFaults,
      .update "1" (.object [("status", .string "completed")]) sampleLater rowLost]).rows
      = [⟨1, "a", "", "completed", sampleTime, sampleLater⟩] ∧
    (⟨cacheKey 1, jsonMarshal sampleTask, Hour⟩ : Entry)
      ∈ (run sampleSys [.get "1" noFaults,
        .update "1" (.object [("status", .string "completed")]) sampleLater rowLost]).cache ∧
    jsonMarshal sampleTask ≠ jsonMarshal ⟨1, "a", "", "completed", sampleTime, sampleLater⟩ := by
  refine ⟨by decide, by decide, List.mem_cons_self _ _, by decide, by decide,
    List.mem_cons_self _ _, by decide⟩

/-- A set leaves the entries under every other key as they were. -/
theorem filter_other_set (fl : Faults) (c : List Entry) (key other value : String) (ttl : Int)
    (hne : other ≠ key) :
    (redisSet fl c key value ttl).filter (fun e => e.key == other)
      = c.filter (fun e => e.key == other) := by
  unfold redisSet
  cases fl.setErr with
  | some msg => rfl
  | none =>
    have hk : (key == other) = false := by simpa using fun h => hne h.symm
    simp only [List.filter_cons, hk, Bool.false_eq_true, if_false, List.filter_filter]
    apply List.filter_congr
    intro e _
    by_cases he : e.key = other
    · simp [he, hne]
    · simp [he]

/-- A delete leaves the entries under every other key as they were. -/
theorem filter_other_del (fl : Faults) (c : List Entry) (key other : String)
    (hne : other ≠ key) :
    (redisDel fl c key).filter (fun e => e.key == other)
      = c.filter (fun e => e.key == other) := by
  unfold redisDel
  cases fl.delErr with
  | some msg => rfl
  | none =>
    simp only [List.filter_filter]
    apply List.filter_congr
    intro e _
    by_cases he : e.key = other
    · simp [he, hne]
    · simp [he]

/-- The cache after `GetTask` is the cache before, possibly after one set on
the key of the id asked for; every cache operation issued is on that key. -/
theorem getTask_cache_form (idParam : String) (taskID : Int) (fl : Faults) (s : Sys)
    (hid : ParseInt idParam = some taskID) :
    ((GetTask idParam fl s).sys.cache = s.cache ∨
      ∃ v ttl, (GetTask idParam fl s).sys.cache = redisSet fl s.cache (cacheKey taskID) v ttl) ∧
    (∀ e ∈ (GetTask idParam fl s).effects, ∀ k, e.keyOf = some k → k = cacheKey taskID) := by
  unfold GetTask
  simp only [hid]
  cases redisGet fl s.cache (cacheKey taskID) with
  | ok v =>
    refine ⟨Or.inl rfl, ?_⟩
    intro e he k hk
    simp only [List.mem_singleton] at he
    rw [he] at hk
    simp only [Effect.keyOf, Option.some.injEq] at hk
    exact hk.symm
  | err ce =>
    simp only []
    cases selectTask fl s.rows taskID with
    | err d =>
      cases d with
      | ErrNoRows =>
        refine ⟨Or.inl rfl, ?_⟩
        intro e he k hk
        simp only [List.mem_cons, List.mem_singleton, List.not_mem_nil, or_false] at he
        rcases he with he | he <;> rw [he] at hk <;> simp [Effect.keyOf] at hk
        exact hk.symm
      | other msg =>
        refine ⟨Or.inl rfl, ?_⟩
        intro e he k hk
        simp only [List.mem_cons, List.mem_singleton, List.not_mem_nil, or_false] at he
        rcases he with he | he <;> rw [he] at hk <;> simp [Effect.keyOf] at hk
        exact hk.symm
    | ok task =>
      refine ⟨Or.inr ⟨_, _, rfl⟩, ?_⟩
      intro e he k hk
      simp only [List.mem_cons, List.mem_singleton, List.not_mem_nil, or_false] at he
      rcases he with he | he | he <;> rw [he] at hk <;> simp [Effect.keyOf] at hk
      · exact hk.symm
      · exact hk.symm

/-- The cache after `UpdateTask` is the cache before, possibly after one set on
the key of the id asked for; every cache operation issued is on that key. -/
theorem updateTask_cache_form (idParam : String) (taskID : Int) (body : Body) (now : Time)
    (fl : Faults) (s : Sys) (hid : ParseInt idParam = some taskID) :
    ((UpdateTask idParam body now fl s).sys.cache = s.cache ∨
      ∃ v ttl, (UpdateTask idParam body now fl s).sys.cache
        = redisSet fl s.cache (cacheKey taskID) v ttl) ∧
    (∀ e ∈ (UpdateTask idParam body now fl s).effects, ∀ k, e.keyOf = some k →
      k = cacheKey taskID) := by
  unfold UpdateTask
  simp only [hid]
  cases decodeUpdateTaskRequest body with
  | none => exact ⟨Or.inl rfl, fun e he => absurd he (List.not_mem_nil e)⟩
  | some req =>
    simp only []
    by_cases hst : req.Status ≠ "" ∧ req.Status ≠ "pending" ∧ req.Status ≠ "in_progress"
        ∧ req.Status ≠ "completed"
    · rw [if_pos hst]
      exact ⟨Or.inl rfl, fun e he => absurd he (List.not_mem_nil e)⟩
    · rw [if_neg hst]
      cases updateTask fl s.rows (nullString req.Title) (nullString req.Description)
          (nullString req.Status) now taskID with
      | mk res rows1 =>
        cases res with
        | err d =>
          cases d with
          | ErrNoRows =>
            refine ⟨Or.inl rfl, ?_⟩
            intro e he k hk
            simp only [List.mem_singleton] at he
            rw [he] at hk
            simp [Effect.keyOf] at hk
          | other msg =>
            refine ⟨Or.inl rfl, ?_⟩
            intro e he k hk
            simp only [List.mem_singleton] at he
            rw [he] at hk
            simp [Effect.keyOf] at hk
        | ok task =>
          refine ⟨Or.inr ⟨_, _, rfl⟩, ?_⟩
          intro e he k hk
          simp only [List.mem_cons, List.mem_singleton, List.not_mem_nil, or_false] at he
          rcases he with he | he <;> rw [he] at hk <;> simp [Effect.keyOf] at hk
          exact hk.symm

/-- The cache after `DeleteTask` is the cache before, possibly after one delete
on the key of the id asked for; every cache operation issued is on that key. -/
theorem deleteTask_cache_form (idParam : String) (taskID : Int) (fl : Faults) (s : Sys)
    (hid : ParseInt idParam = some taskID) :
    ((DeleteTask idParam fl s).sys.cache = s.cache ∨
      (DeleteTask idParam fl s).sys.cache = redisDel fl s.cache (cacheKey taskID)) ∧
    (∀ e ∈ (DeleteTask idParam fl s).effects, ∀ k, e.keyOf = some k → k = cacheKey taskID) := by
  unfold DeleteTask
  simp only [hid]
  cases deleteTask fl s.rows taskID with
  | mk res rows1 =>
    cases res with
    | err msg =>
      refine ⟨Or.inl rfl, ?_⟩
      intro e he k hk
      simp only [List.mem_singleton] at he
      rw [he] at hk
      simp [Effect.keyOf] at hk
    | ok n =>
      simp only []
      cases fl.rowsAffectedErr with
      | some msg =>
        refine ⟨Or.inl rfl, ?_⟩
        intro e he k hk
        simp only [List.mem_singleton] at he
        rw [he] at hk
        simp [Effect.keyOf] at hk
      | none =>
        simp only []
        by_cases hz : n = 0
        · rw [if_pos hz]
          refine ⟨Or.inl rfl, ?_⟩
          intro e he k hk
          simp only [List.mem_singleton] at he
          rw [he] at hk
          simp [Effect.keyOf] at hk
        · rw [if_neg hz]
          refine ⟨Or.inr rfl, ?_⟩
          intro e he k hk
          simp only [List.mem_cons, List.mem_singleton, List.not_mem_nil, or_false] at he
          rcases he with he | he <;> rw [he] at hk <;> simp [Effect.keyOf] at hk
          exact hk.symm

/-- The value found under a key is that of the first entry under the key. -/
theorem cacheLookup_filter (c : List Entry) (key : String) :
    cacheLookup c key = ((c.filter (fun e => e.key == key)).head?).map (fun e => e.value) := by
  unfold cacheLookup
  induction c with
  | nil => rfl
  | cons e rest ih =>
    simp only [List.find?_cons, List.filter_cons]
    cases (e.key == key) with
    | true => rfl
    | false => exact ih

/-- C20. `GetTask`, `UpdateTask` and `DeleteTask` issue their cache operations
on the one key `task:<decimal id>` of the id they are called with; the key is
injective (two different ids have different keys); and so a call for one id
leaves the cache entries of every other id, and what a lookup of their keys
finds, as they were. -/
theorem cache_key_discipline (idParam : String) (taskID : Int) (body : Body) (now : Time)
    (fl : Faults) (s : Sys) (hid : ParseInt idParam = some taskID) :
    cacheKey taskID = "task:" ++ formatInt taskID ∧
    (∀ e ∈ (GetTask idParam fl s).effects, ∀ k, e.keyOf = some k → k = cacheKey taskID) ∧
    (∀ e ∈ (UpdateTask idParam body now fl s).effects, ∀ k, e.keyOf = some k →
      k = cacheKey taskID) ∧
    (∀ e ∈ (DeleteTask idParam fl s).effects, ∀ k, e.keyOf = some k → k = cacheKey taskID) ∧
    (∀ a b : Int, a ≠ b → cacheKey a ≠ cacheKey b) ∧
    (∀ b : Int, b ≠ taskID →
      (GetTask idParam fl s).sys.cache.filter (fun e => e.key == cacheKey b)
        = s.cache.filter (fun e => e.key == cacheKey b) ∧
      (UpdateTask idParam body now fl s).sys.cache.filter (fun e => e.key == cacheKey b)
        = s.cache.filter (fun e => e.key == cacheKey b) ∧
      (DeleteTask idParam fl s).sys.cache.filter (fun e => e.key == cacheKey b)
        = s.cache.filter (fun e => e.key == cacheKey b) ∧
      cacheLookup (GetTask idParam fl s).sys.cache (cacheKey b) = cacheLookup s.cache (cacheKey b) ∧
      cacheLookup (UpdateTask idParam body now fl s).sys.cache (cacheKey b)
        = cacheLookup s.cache (cacheKey b) ∧
      cacheLookup (DeleteTask idParam fl s).sys.cache (cacheKey b)
        = cacheLookup s.cache (cacheKey b)) := by
  have hinj : ∀ a b : Int, a ≠ b → cacheKey a ≠ cacheKey b :=
    fun a b hab hk => hab (cacheKey_eq a b hk)
  obtain ⟨hg, hgk⟩ := getTask_cache_form idParam taskID fl s hid
  obtain ⟨hu, huk⟩ := updateTask_cache_form idParam taskID body now fl s hid
  obtain ⟨hd, hdk⟩ := deleteTask_cache_form idParam taskID fl s hid
  refine ⟨rfl, hgk, huk, hdk, hinj, ?_⟩
  intro b hb
  have hkey : cacheKey b ≠ cacheKey taskID := hinj b taskID hb
  have h1 : (GetTask idParam fl s).sys.cache.filter (fun e => e.key == cacheKey b)
      = s.cache.filter (fun e => e.key == cacheKey b) := by
    rcases hg with h | ⟨v, ttl, h⟩
    · rw [h]
    · rw [h]
      exact filter_other_set fl s.cache _ _ v ttl hkey
  have h2 : (UpdateTask idParam body now fl s).sys.cache.filter (fun e => e.key == cacheKey b)
      = s.cache.filter (fun e => e.key == cacheKey b) := by
    rcases hu with h | ⟨v, ttl, h⟩
    · rw [h]
    · rw [h]
      exact filter_other_set fl s.cache _ _ v ttl hkey
  have h3 : (DeleteTask idParam fl s).sys.cache.filter (fun e => e.key == cacheKey b)
      = s.cache.filter (fun e => e.key == cacheKey b) := by
    rcases hd with h | h
    · rw [h]
    · rw [h]
      exact filter_other_del fl s.cache _ _ hkey
  refine ⟨h1, h2, h3, ?_, ?_, ?_⟩
  · rw [cacheLookup_filter, cacheLookup_filter, h1]
  · rw [cacheLookup_filter, cacheLookup_filter, h2]
  · rw [cacheLookup_filter, cacheLookup_filter, h3]

/-- Witness of C20: a read, an update and a delete of id 1 leave the cache
entry of id 2 as it was. -/
theorem cache_key_discipline_witness :
    cacheLookup (GetTask "1" cacheDown twoEntriesSys).sys.cache (cacheKey 2) = some "v2" ∧
    cacheLookup (UpdateTask "1" (.object [("status", .string "completed")]) sampleLater
      noFaults twoEntriesSys).sys.cache (cacheKey 2) = some "v2" ∧
    cacheLookup (DeleteTask "1" noFaults twoEntriesSys).sys.cache (cacheKey 2) = some "v2" ∧
    cacheKey 1 ≠ cacheKey 2 :=
  ⟨((cache_key_discipline "1" 1 .null sampleLater cacheDown twoEntriesSys
      (by decide)).2.2.2.2.2 2 (by decide)).2.2.2.1,
    ((cache_key_discipline "1" 1 (.object [("status", .string "completed")]) sampleLater
      noFaults twoEntriesSys (by decide)).2.2.2.2.2 2 (by decide)).2.2.2.2.1,
    ((cache_key_discipline "1" 1 .null sampleLater noFaults twoEntriesSys
      (by decide)).2.2.2.2.2 2 (by decide)).2.2.2.2.2,
    (cache_key_discipline "1" 1 .null sampleLater noFaults twoEntriesSys
      (by decide)).2.2.2.2.1 1 2 (by decide)⟩

end Queuet
